import Mathlib

/-!
Verification of the stateful session engine of a Kconfig language server.

The development shallowly embeds the two source modules of the server:

* `lsp.py` — positions, ranges, URIs, text buffers (`TextDocument`), the
  document store, diagnostics and the JSON-RPC dispatch loop;
* `kconfiglsp.py` — the Kconfig session (`KconfigContext`), the
  version-stamped node-identity scheme (`_node_id` / `find_node`),
  the lint pipeline (`check_undefined` … `check_multiple_assignments`)
  and the custom request handlers.

Python strings are modelled as `List Char`; Python `None`-or-value results
are `Option`; code that can raise is embedded in `Except PyExc`.  Mutation
of an object is modelled by returning the updated value.
-/

namespace KconfigSrv

/-- Decidable equality for `Except`, used to settle concrete runs of the
embedded fallible operations by `decide`. -/
instance {e a : Type} [DecidableEq e] [DecidableEq a] : DecidableEq (Except e a) :=
  fun x y =>
    match x, y with
    | .ok u, .ok v =>
      if h : u = v then isTrue (by rw [h]) else isFalse (by simp [h])
    | .error u, .error v =>
      if h : u = v then isTrue (by rw [h]) else isFalse (by simp [h])
    | .ok _, .error _ => isFalse (by simp)
    | .error _, .ok _ => isFalse (by simp)

/-! ## Python string helpers -/

/-- Python `s.split(sep)` for a one-character separator: the result always
has at least one (possibly empty) piece. -/
def splitOnSep (sep : Char) : List Char → List (List Char)
  | [] => [[]]
  | c :: rest =>
    let r := splitOnSep sep rest
    if c = sep then [] :: r
    else
      match r with
      | h :: t => (c :: h) :: t
      | [] => [[c]]

/-- Python `sep.join(parts)` for a one-character separator. -/
def joinSep (sep : Char) : List (List Char) → List Char
  | [] => []
  | [p] => p
  | p :: q :: ps => p ++ sep :: joinSep sep (q :: ps)

/-- Characters Python `str.splitlines` treats as line boundaries. -/
def pyLineBreak (c : Char) : Bool :=
  c = '\n' || c = '\r' || c = Char.ofNat 11 || c = Char.ofNat 12 ||
  c = Char.ofNat 28 || c = Char.ofNat 29 || c = Char.ofNat 30 ||
  c = Char.ofNat 133 || c = Char.ofNat 8232 || c = Char.ofNat 8233

/-- Python `s.splitlines()` restricted to strings whose only line-break
character is `\n` (the only case arising below, where texts are produced by
joining break-free lines with `\n`): split on `\n` and drop the trailing
empty piece when the string ends in `\n`; the empty string gives `[]`. -/
def splitlinesPy (s : List Char) : List (List Char) :=
  if s = [] then []
  else
    let parts := splitOnSep '\n' s
    if s.getLast? = some '\n' then parts.dropLast else parts

theorem splitOnSep_ne_nil (sep : Char) (s : List Char) : splitOnSep sep s ≠ [] := by
  cases s with
  | nil => simp [splitOnSep]
  | cons c rest =>
    simp only [splitOnSep]
    by_cases h : c = sep
    · simp [h]
    · simp only [h, if_false]
      cases splitOnSep sep rest <;> simp

theorem splitOnSep_no_sep (sep : Char) (s : List Char) (h : sep ∉ s) :
    splitOnSep sep s = [s] := by
  induction s with
  | nil => rfl
  | cons c rest ih =>
    simp only [List.mem_cons, not_or] at h
    have hc : c ≠ sep := fun hh => h.1 hh.symm
    simp [splitOnSep, if_neg hc, ih h.2]

theorem splitOnSep_append_sep (sep : Char) (a b : List Char) (ha : sep ∉ a) :
    splitOnSep sep (a ++ sep :: b) = a :: splitOnSep sep b := by
  induction a with
  | nil => simp [splitOnSep]
  | cons c rest ih =>
    simp only [List.mem_cons, not_or] at ha
    have hc : c ≠ sep := fun hh => ha.1 hh.symm
    simp [splitOnSep, if_neg hc, ih ha.2]

/-! ## Decimal rendering and parsing (Python `str(n)` / `int(s)`) -/

/-- Decimal digit character. -/
def digitChar (n : Nat) : Char := Char.ofNat (48 + n)

/-- Structural helper for `natToChars`: the fuel bounds the number of
divisions by ten and is always sufficient when it is at least `n`. -/
def natToCharsFuel : Nat → Nat → List Char
  | 0, n => [digitChar n]
  | fuel + 1, n =>
    if n < 10 then [digitChar n]
    else natToCharsFuel fuel (n / 10) ++ [digitChar (n % 10)]

/-- Python `str(n)` for a non-negative integer, as characters. -/
def natToChars (n : Nat) : List Char := natToCharsFuel n n

theorem natToCharsFuel_irrel (f1 : Nat) : ∀ f2 n, n ≤ f1 → n ≤ f2 →
    natToCharsFuel f1 n = natToCharsFuel f2 n := by
  induction f1 with
  | zero =>
    intro f2 n h1 _
    have hn : n = 0 := by omega
    subst hn
    cases f2 <;> rfl
  | succ f1 ih =>
    intro f2 n h1 h2
    by_cases hn : n < 10
    · cases f2 with
      | zero =>
        have hz : n = 0 := by omega
        subst hz
        rfl
      | succ f2 => simp [natToCharsFuel, hn]
    · cases f2 with
      | zero => omega
      | succ f2 =>
        simp only [natToCharsFuel, if_neg hn]
        have hd : n / 10 < n := Nat.div_lt_self (by omega) (by omega)
        rw [ih f2 (n / 10) (by omega) (by omega)]

/-- The recursive unfolding of `natToChars` (Python `str`). -/
theorem natToChars_eq (n : Nat) :
    natToChars n = if n < 10 then [digitChar n]
      else natToChars (n / 10) ++ [digitChar (n % 10)] := by
  by_cases hn : n < 10
  · unfold natToChars
    cases hc : n with
    | zero => simp [natToCharsFuel, hn]
    | succ k =>
      subst hc
      simp [natToCharsFuel, hn]
  · have h10 : 10 ≤ n := by omega
    unfold natToChars
    cases hc : n with
    | zero => omega
    | succ k =>
      subst hc
      simp only [natToCharsFuel, if_neg hn]
      have hd : (k + 1) / 10 < k + 1 := Nat.div_lt_self (by omega) (by omega)
      rw [natToCharsFuel_irrel k ((k + 1) / 10) ((k + 1) / 10) (by omega) (by omega)]

theorem natToChars_ne_nil (n : Nat) : natToChars n ≠ [] := by
  rw [natToChars_eq]
  split <;> simp

/-- Accumulating decimal parser over digit characters. -/
def parseDigitsAux (acc : Nat) : List Char → Option Nat
  | [] => some acc
  | c :: rest =>
    if c.isDigit then parseDigitsAux (acc * 10 + (c.toNat - 48)) rest else none

/-- Parse a non-empty all-digit string as a natural number; `none` models a
`ValueError` from Python `int(s)`. -/
def parseDigits : List Char → Option Nat
  | [] => none
  | s => parseDigitsAux 0 s

/-- Python `int(s)` on the token alphabet: an optional leading minus sign
followed by decimal digits.  (Whitespace, `+` and `_` forms accepted by
Python only arise from malformed tokens and are not modelled.) -/
def pyInt (s : List Char) : Option Int :=
  match s with
  | '-' :: rest => (parseDigits rest).map (fun n => -(n : Int))
  | _ => (parseDigits s).map (fun n => (n : Int))

theorem digitChar_isDigit (n : Nat) (h : n < 10) : (digitChar n).isDigit = true := by
  interval_cases n <;> decide

theorem digitChar_toNat (n : Nat) (h : n < 10) : (digitChar n).toNat = 48 + n := by
  interval_cases n <;> decide

theorem mem_natToChars_isDigit (n : Nat) (c : Char) (hc : c ∈ natToChars n) :
    c.isDigit = true := by
  induction n using Nat.strong_induction_on with
  | _ n ih =>
    rw [natToChars_eq] at hc
    split at hc
    · next h =>
      simp only [List.mem_singleton] at hc
      exact hc ▸ digitChar_isDigit n h
    · next h =>
      rw [List.mem_append] at hc
      rcases hc with hc | hc
      · exact ih (n / 10) (Nat.div_lt_self (by omega) (by omega)) hc
      · simp only [List.mem_singleton] at hc
        exact hc ▸ digitChar_isDigit (n % 10) (Nat.mod_lt n (by omega))

theorem parseDigitsAux_natToChars (n : Nat) :
    ∀ acc rest, parseDigitsAux acc (natToChars n ++ rest) =
      parseDigitsAux (acc * 10 ^ (natToChars n).length + n) rest := by
  induction n using Nat.strong_induction_on with
  | _ n ih =>
    intro acc rest
    rw [natToChars_eq]
    split
    · next h =>
      simp only [List.singleton_append, parseDigitsAux, digitChar_isDigit n h,
        if_true, digitChar_toNat n h, List.length_singleton, pow_one]
      congr 1
      omega
    · next h =>
      have hlt : n / 10 < n := Nat.div_lt_self (by omega) (by omega)
      have hm : n % 10 < 10 := Nat.mod_lt n (by omega)
      rw [List.append_assoc, ih (n / 10) hlt acc ([digitChar (n % 10)] ++ rest)]
      simp only [List.singleton_append, parseDigitsAux, digitChar_isDigit _ hm,
        if_true, digitChar_toNat _ hm, List.length_append, List.length_singleton]
      congr 1
      have key : n / 10 * 10 + n % 10 = n := by omega
      calc (acc * 10 ^ (natToChars (n / 10)).length + n / 10) * 10 + (48 + n % 10 - 48)
          = acc * (10 ^ (natToChars (n / 10)).length * 10) + (n / 10 * 10 + n % 10) := by
            have h48 : 48 + n % 10 - 48 = n % 10 := by omega
            rw [h48]; ring
        _ = acc * 10 ^ ((natToChars (n / 10)).length + 1) + n := by rw [key, pow_succ]

theorem parseDigits_natToChars (n : Nat) : parseDigits (natToChars n) = some n := by
  have h1 : natToChars n ≠ [] := natToChars_ne_nil n
  have h2 := parseDigitsAux_natToChars n 0 []
  rw [List.append_nil] at h2
  cases hh : natToChars n with
  | nil => exact absurd hh h1
  | cons c cs =>
    have : parseDigits (c :: cs) = parseDigitsAux 0 (c :: cs) := rfl
    rw [this, ← hh, h2]
    simp [parseDigitsAux]

theorem pyInt_natToChars (n : Nat) : pyInt (natToChars n) = some (n : Int) := by
  rw [pyInt.eq_def]
  split
  · next rest heq =>
    exfalso
    have hmem : ('-' : Char) ∈ natToChars n := by rw [heq]; simp
    exact absurd (mem_natToChars_isDigit n '-' hmem) (by decide)
  · rw [parseDigits_natToChars]; rfl

theorem natToChars_no_sep (n : Nat) (c : Char) (hc : c ∈ natToChars n)
    (hnd : c.isDigit = false) : False := by
  rw [mem_natToChars_isDigit n c hc] at hnd
  exact Bool.noConfusion hnd

/-! ## LSP data model (`lsp.py`): positions, ranges, URIs, diagnostics -/

/-- Zero-based line/character position (`lsp.py` `Position`). -/
structure Position where
  line : Nat
  character : Nat
deriving DecidableEq

/-- A text range (`lsp.py` `Range`); the source field `end` is spelled
`stop` because `end` is a Lean keyword. -/
structure Range where
  start : Position
  stop : Position
deriving DecidableEq

/-- Resource identifier (`lsp.py` `Uri`). -/
structure Uri where
  scheme : String
  authority : String
  path : String
  query : String
  fragment : String
deriving DecidableEq

/-- `Uri.file(path)` constructor. -/
def Uri.file (path : String) : Uri := ⟨"file", "", path, "", ""⟩

/-- Python `str(uri)` / `Uri.__repr__`: `scheme://authority path`, then the
query and fragment when non-empty (empty strings are falsy). -/
def uriStr (u : Uri) : String :=
  let base := u.scheme ++ "://" ++ u.authority ++ u.path
  let base := if u.query ≠ "" then base ++ "?" ++ u.query else base
  if u.fragment ≠ "" then base ++ "#" ++ u.fragment else base

/-- Source location (`lsp.py` `Location`).  The class defines no `__eq__`,
so Python `==` between two `Location` objects is object identity. -/
structure Location where
  uri : Uri
  range : Range
deriving DecidableEq

/-- Diagnostic severity constants from `lsp.py` `Diagnostic`. -/
def SevERROR : Nat := 1

/-- Warning severity (`Diagnostic.WARNING`). -/
def SevWARNING : Nat := 2

/-- Information severity (`Diagnostic.INFORMATION`). -/
def SevINFORMATION : Nat := 3

/-- Hint severity (`Diagnostic.HINT`). -/
def SevHINT : Nat := 4

/-- The `Diagnostic.Tag.UNNECESSARY` tag value. -/
def TagUNNECESSARY : Nat := 1

/-- A single text edit (`lsp.py` `TextEdit`). -/
structure TextEdit where
  range : Range
  newText : String
deriving DecidableEq

/-- `TextEdit.remove(range)`: replace the range with the empty string. -/
def TextEdit.remove (range : Range) : TextEdit := ⟨range, ""⟩

/-- A workspace edit: lists of text edits grouped by `str(uri)`
(`lsp.py` `WorkspaceEdit.changes`). -/
structure WorkspaceEdit where
  changes : List (String × List TextEdit)
deriving DecidableEq

/-- Append to an association list keyed by strings, preserving Python dict
insertion-order semantics (`WorkspaceEdit.add`, `Kconfig._warn`,
`KconfigContext.kconfig_diag` all use this pattern). -/
def assocAppend {α : Type} (m : List (String × List α)) (key : String) (v : α) :
    List (String × List α) :=
  match m with
  | [] => [(key, [v])]
  | (k, vs) :: rest =>
    if k = key then (k, vs ++ [v]) :: rest
    else (k, vs) :: assocAppend rest key v

/-- Lookup in an insertion-ordered association list (Python `dict.get`). -/
def assocGet {κ α : Type} [DecidableEq κ] (m : List (κ × α)) (key : κ) : Option α :=
  match m with
  | [] => none
  | (k, v) :: rest => if k = key then some v else assocGet rest key

/-- `WorkspaceEdit.add(uri, edit)`. -/
def WorkspaceEdit.add (w : WorkspaceEdit) (uri : Uri) (edit : TextEdit) : WorkspaceEdit :=
  ⟨assocAppend w.changes (uriStr uri) edit⟩

/-- A code action (`lsp.py` `CodeAction`); only the quickfix kind occurs, and
the `diagnostics` back-reference is dropped (it is cyclic in the source). -/
structure CodeAction where
  title : String
  edit : WorkspaceEdit
deriving DecidableEq

/-- `CodeAction(title)` constructor: empty edit set. -/
def CodeAction.mk0 (title : String) : CodeAction := ⟨title, ⟨[]⟩⟩

/-- Related-information entry (`lsp.py` `DiagnosticRelatedInfo`). -/
structure DiagnosticRelatedInfo where
  loc : Location
  message : String
deriving DecidableEq

/-- A diagnostic (`lsp.py` `Diagnostic`), with the mutable `tags`,
`related_info` and `actions` lists as fields. -/
structure Diagnostic where
  message : String
  range : Range
  severity : Nat
  tags : List Nat := []
  related_info : List DiagnosticRelatedInfo := []
  actions : List CodeAction := []
deriving DecidableEq

/-- `Diagnostic.err(message, range)`. -/
def Diagnostic.err (message : String) (range : Range) : Diagnostic :=
  ⟨message, range, SevERROR, [], [], []⟩

/-- `Diagnostic.warn(message, range)`. -/
def Diagnostic.warn (message : String) (range : Range) : Diagnostic :=
  ⟨message, range, SevWARNING, [], [], []⟩

/-- `Diagnostic.hint(message, range)`. -/
def Diagnostic.hint (message : String) (range : Range) : Diagnostic :=
  ⟨message, range, SevHINT, [], [], []⟩

/-- `Diagnostic.mark_unnecessary()`: append the UNNECESSARY tag. -/
def Diagnostic.mark_unnecessary (d : Diagnostic) : Diagnostic :=
  { d with tags := d.tags ++ [TagUNNECESSARY] }

/-- `Diagnostic.add_action(action)`: append to the action list (the
reverse registration of the diagnostic on the action is dropped). -/
def Diagnostic.add_action (d : Diagnostic) (a : CodeAction) : Diagnostic :=
  { d with actions := d.actions ++ [a] }

/-! ## Text buffers (`lsp.py` `TextDocument`) -/

/-- An editable line-indexed text buffer (`lsp.py` `TextDocument`); only the
fields the verified operations read are modelled.  `lines` is the list of
line strings (without terminators), as produced by `_set_text`. -/
structure TextDocument where
  uri : Uri
  lines : List (List Char)
deriving DecidableEq

/-- `TextDocument.text`: `'\n'.join(self.lines) + '\n'`. -/
def docText (d : TextDocument) : List Char := joinSep '\n' d.lines ++ ['\n']

/-- `TextDocument.offset(pos)`: length of all lines strictly before
`pos.line` (each plus one newline) plus the character clamped to the line
length plus one; positions past the last line map to the text length. -/
def TextDocument.offset (d : TextDocument) (pos : Position) : Nat :=
  if pos.line ≥ d.lines.length then (docText d).length
  else
    let lineLen := ((d.lines.get? pos.line).getD []).length
    let character := min (lineLen + 1) pos.character
    (((d.lines.take pos.line).map (fun l => l ++ ['\n'])).flatten).length + character

/-- `TextDocument.pos(offset)`: split `text[:offset]` into lines; an empty
prefix gives `(0, 0)`, otherwise the index and length of the last line. -/
def TextDocument.pos (d : TextDocument) (offset : Nat) : Position :=
  let content := (docText d).take offset
  let ls := splitlinesPy content
  match ls.getLast? with
  | none => ⟨0, 0⟩
  | some last => ⟨ls.length - 1, last.length⟩

/-- A buffer is well formed when no line contains a character Python
`str.splitlines` treats as a line boundary (true of buffers produced by
`_set_text`, which derives `lines` by splitting on line boundaries). -/
def wfLines (lines : List (List Char)) : Prop :=
  ∀ l ∈ lines, ∀ c ∈ l, pyLineBreak c = false

instance (lines : List (List Char)) : Decidable (wfLines lines) := by
  unfold wfLines; infer_instance

theorem joinSep_split (sep : Char) (pre : List (List Char)) (l : List Char)
    (suf : List (List Char)) :
    joinSep sep (pre ++ l :: suf) =
      (pre.map (fun x => x ++ [sep])).flatten ++ joinSep sep (l :: suf) := by
  induction pre with
  | nil => simp
  | cons p0 pre' ih =>
    have hne : pre' ++ l :: suf ≠ [] := by simp
    cases hx : pre' ++ l :: suf with
    | nil => exact absurd hx hne
    | cons q qs =>
      simp only [List.cons_append, hx, joinSep, List.map_cons, List.flatten_cons]
      rw [← hx, ih, List.append_assoc]
      simp

theorem splitOnSep_join_parts (pre : List (List Char)) (m : List Char)
    (hpre : ∀ l ∈ pre, '\n' ∉ l) (hm : '\n' ∉ m) :
    splitOnSep '\n' ((pre.map (fun x => x ++ ['\n'])).flatten ++ m) = pre ++ [m] := by
  induction pre with
  | nil => simpa using splitOnSep_no_sep '\n' m hm
  | cons l pre' ih =>
    simp only [List.map_cons, List.flatten_cons, List.append_assoc, List.singleton_append]
    rw [List.cons_append]
    rw [splitOnSep_append_sep '\n' l _ (hpre l (by simp))]
    rw [ih (fun x hx => hpre x (by simp [hx]))]
    rfl

theorem getLast?_append_of_ne_nil {α : Type} (a b : List α) (hb : b ≠ []) :
    (a ++ b).getLast? = b.getLast? := by
  rw [List.getLast?_eq_head?_reverse, List.getLast?_eq_head?_reverse, List.reverse_append]
  exact List.head?_append_of_ne_nil _ (by simpa using hb)

theorem getLast?_mem {α : Type} (l : List α) (a : α) (h : l.getLast? = some a) :
    a ∈ l := by
  rw [List.getLast?_eq_head?_reverse] at h
  have := List.mem_of_mem_head? h
  simpa using this

theorem joinSep_cons_head (sep : Char) (l : List Char) (suf : List (List Char)) :
    ∃ rest, joinSep sep (l :: suf) ++ [sep] = l ++ rest := by
  cases suf with
  | nil => exact ⟨[sep], rfl⟩
  | cons q qs =>
    refine ⟨sep :: joinSep sep (q :: qs) ++ [sep], ?_⟩
    simp [joinSep]

/-- Round-trip core: for a well-formed buffer, a position on an existing
line whose character is at least 1 and at most the line length maps through
`offset` and back through `pos` to itself. -/
theorem pos_offset_eq (d : TextDocument) (p : Position)
    (hwf : wfLines d.lines) (hline : p.line < d.lines.length)
    (h1 : 1 ≤ p.character)
    (h2 : p.character ≤ ((d.lines.get? p.line).getD []).length) :
    d.pos (d.offset p) = p := by
  obtain ⟨pl, pc⟩ := p
  simp only at hline h1 h2 ⊢
  obtain ⟨l, hl⟩ : ∃ l, d.lines.get? pl = some l := ⟨_, List.get?_eq_get hline⟩
  rw [hl] at h2
  simp only [Option.getD_some] at h2
  have hmem_l : l ∈ d.lines := List.get?_mem hl
  set pre := d.lines.take pl with hpre_def
  set suf := d.lines.drop (pl + 1) with hsuf_def
  have hdecomp : d.lines = pre ++ l :: suf := by
    conv_lhs => rw [← List.take_append_drop pl d.lines]
    rw [hpre_def, hsuf_def]
    congr 1
    rw [List.drop_eq_getElem_cons hline]
    congr 1
    rw [List.get?_eq_get hline] at hl
    simpa using hl
  have hpre_len : pre.length = pl := by
    rw [hpre_def, List.length_take]
    omega
  set J := (pre.map (fun x => x ++ ['\n'])).flatten with hJ_def
  set m := l.take pc with hm_def
  have hm_len : m.length = pc := by
    rw [hm_def, List.length_take]
    omega
  have hm_ne : m ≠ [] := by
    intro h
    rw [h] at hm_len
    simp at hm_len
    omega
  have hofs : d.offset ⟨pl, pc⟩ = J.length + pc := by
    unfold TextDocument.offset
    rw [if_neg (by simp only [ge_iff_le, not_le]; exact hline)]
    simp only [hl, Option.getD_some]
    congr 1
    omega
  have htext : docText d = J ++ (joinSep '\n' (l :: suf) ++ ['\n']) := by
    unfold docText
    conv_lhs => rw [hdecomp]
    rw [joinSep_split, List.append_assoc]
  obtain ⟨rest, hrest⟩ := joinSep_cons_head '\n' l suf
  have htake : (docText d).take (J.length + pc) = J ++ m := by
    rw [htext, hrest, List.take_append_eq_append_take,
      List.take_of_length_le (by omega), Nat.add_sub_cancel_left,
      List.take_append_eq_append_take]
    have hz : pc - l.length = 0 := by omega
    rw [hz, List.take_zero, List.append_nil, hm_def]
  have hnl_line : ∀ x ∈ d.lines, '\n' ∉ x := by
    intro x hx hin
    have := hwf x hx '\n' hin
    simp [pyLineBreak] at this
  have hpre_nl : ∀ x ∈ pre, '\n' ∉ x := by
    intro x hx
    exact hnl_line x (List.take_subset _ _ hx)
  have hnl_m : '\n' ∉ m := fun hin => hnl_line l hmem_l (List.take_subset _ _ hin)
  have hsplit : splitOnSep '\n' (J ++ m) = pre ++ [m] :=
    splitOnSep_join_parts pre m hpre_nl hnl_m
  have hJm_ne : J ++ m ≠ [] := by
    intro h
    exact hm_ne (List.append_eq_nil.mp h).2
  have hlast_ne : ¬ (J ++ m).getLast? = some '\n' := by
    rw [getLast?_append_of_ne_nil J m hm_ne]
    intro hc
    exact hnl_m (getLast?_mem m '\n' hc)
  have hlines : splitlinesPy (J ++ m) = pre ++ [m] := by
    rw [splitlinesPy, if_neg hJm_ne]
    simp only [hlast_ne, if_false]
    exact hsplit
  simp only [TextDocument.pos]
  rw [hofs, htake, hlines]
  rw [getLast?_append_of_ne_nil pre [m] (by simp)]
  simp only [List.getLast?_singleton]
  rw [List.length_append, hpre_len, hm_len]
  simp

theorem pos_offset_zero (d : TextDocument) : d.pos (d.offset ⟨0, 0⟩) = ⟨0, 0⟩ := by
  obtain ⟨u, lines⟩ := d
  cases lines with
  | nil => rfl
  | cons l ls =>
    have hofs : TextDocument.offset ⟨u, l :: ls⟩ ⟨0, 0⟩ = 0 := by
      simp [TextDocument.offset]
    rw [hofs]
    simp [TextDocument.pos, splitlinesPy]

/-- C7: the claim as stated is false on the code.  On the buffer with lines
`ab`, `cd`, the in-range position `(1, 0)` maps through `offset` to
character offset 3 and back through `pos` to `(0, 2)`: the text taken up to
the offset ends in a newline, `splitlines` drops the resulting trailing
empty line, and the start-of-line position is reported as the end of the
previous line. -/
theorem c7_roundtrip_counterexample :
    TextDocument.pos ⟨Uri.file "f", [['a', 'b'], ['c', 'd']]⟩
        (TextDocument.offset ⟨Uri.file "f", [['a', 'b'], ['c', 'd']]⟩ ⟨1, 0⟩) =
      ⟨0, 2⟩ ∧
    (⟨0, 2⟩ : Position) ≠ ⟨1, 0⟩ := by
  exact ⟨by decide, by decide⟩

/-- C7 (amended): for every well-formed buffer, `pos (offset p) = p` holds
for the origin `(0, 0)` and for every in-range position whose character is
at least 1 (between 1 and the line length); positions at character 0 of a
later line are the exception forced by the counterexample. -/
theorem c7_pos_offset_roundtrip (d : TextDocument) (p : Position)
    (hwf : wfLines d.lines)
    (h : p = ⟨0, 0⟩ ∨ (p.line < d.lines.length ∧ 1 ≤ p.character ∧
      p.character ≤ ((d.lines.get? p.line).getD []).length)) :
    d.pos (d.offset p) = p := by
  rcases h with h | ⟨h1, h2, h3⟩
  · rw [h]; exact pos_offset_zero d
  · exact pos_offset_eq d p hwf h1 h2 h3

/-- Witness for C7 (amended) at a concrete buffer and position. -/
theorem c7_pos_offset_roundtrip_witness :
    wfLines [['a', 'b'], ['c', 'd']] ∧
    TextDocument.pos ⟨Uri.file "f", [['a', 'b'], ['c', 'd']]⟩
        (TextDocument.offset ⟨Uri.file "f", [['a', 'b'], ['c', 'd']]⟩ ⟨1, 2⟩) =
      ⟨1, 2⟩ :=
  ⟨by decide,
    c7_pos_offset_roundtrip ⟨Uri.file "f", [['a', 'b'], ['c', 'd']]⟩ ⟨1, 2⟩
      (by decide) (Or.inr ⟨by decide, by decide, by decide⟩)⟩

/-! ## Document store (`lsp.py` `DocumentStore`) -/

/-- Python dict assignment `m[key] = v` on an insertion-ordered
association list. -/
def dictSet {α : Type} (m : List (String × α)) (key : String) (v : α) :
    List (String × α) :=
  match m with
  | [] => [(key, v)]
  | (k, x) :: rest => if k = key then (k, v) :: rest else (k, x) :: dictSet rest key v

/-- `TextDocument(uri, text)` as built by `DocumentStore._from_disk`:
`_set_text` derives the line list by splitting the text. -/
def mkTextDocument (uri : Uri) (text : List Char) : TextDocument :=
  ⟨uri, splitlinesPy text⟩

/-- The process-wide document registry (`lsp.py` `DocumentStore`): buffers
keyed by `str(uri)` plus virtual-backend providers keyed by URI scheme.  A
provider is modelled by its `get` method. -/
structure DocumentStore where
  docs : List (String × TextDocument)
  providers : List (String × (Uri → Option TextDocument))

/-- `DocumentStore._from_disk(uri)`: read the file (the file system is the
`disk` oracle; `none` models the `EnvironmentError` its caller catches),
build a buffer and cache it under `str(uri)`. -/
def DocumentStore.from_disk (st : DocumentStore) (disk : String → Option (List Char))
    (uri : Uri) : Option TextDocument × DocumentStore :=
  match disk uri.path with
  | none => (none, st)
  | some text =>
    let doc := mkTextDocument uri text
    (some doc, ⟨dictSet st.docs (uriStr uri) doc, st.providers⟩)

/-- `DocumentStore.get(uri, create)`: the source checks the scheme
providers first, then the cached buffers, then (when `create`) materializes
from disk; a missing file or `create=False` yields `None`. -/
def DocumentStore.get (st : DocumentStore) (disk : String → Option (List Char))
    (uri : Uri) (create : Bool) : Option TextDocument × DocumentStore :=
  match assocGet st.providers uri.scheme with
  | some p => (p uri, st)
  | none =>
    match assocGet st.docs (uriStr uri) with
    | some d => (some d, st)
    | none =>
      if create then st.from_disk disk uri
      else (none, st)

/-- C8: the claim as stated is false on the code.  `DocumentStore.get`
consults a registered virtual backend before the cached buffers: with a
provider registered for scheme `zephyr` that knows no documents, and a
buffer for `zephyr://x` already cached, `get` returns nothing instead of
the existing buffer. -/
theorem c8_get_counterexample :
    (DocumentStore.get
        ⟨[(uriStr ⟨"zephyr", "", "/x", "", ""⟩,
           ⟨⟨"zephyr", "", "/x", "", ""⟩, [['a']]⟩)],
         [("zephyr", fun _ => none)]⟩
        (fun _ => none) ⟨"zephyr", "", "/x", "", ""⟩ true).1 = none ∧
    assocGet
        (DocumentStore.get
          ⟨[(uriStr ⟨"zephyr", "", "/x", "", ""⟩,
             ⟨⟨"zephyr", "", "/x", "", ""⟩, [['a']]⟩)],
           [("zephyr", fun _ => none)]⟩
          (fun _ => none) ⟨"zephyr", "", "/x", "", ""⟩ true).2.docs
        (uriStr ⟨"zephyr", "", "/x", "", ""⟩) =
      some ⟨⟨"zephyr", "", "/x", "", ""⟩, [['a']]⟩ := by
  constructor
  · rfl
  · rfl

/-- C8 (amended): `get` first delegates to a virtual backend registered for
the scheme of the identifier (even when a buffer is cached); only otherwise does
it return the existing buffer; only otherwise, and only when `create` is
true, does it materialize the buffer from persistent storage and cache it;
and it returns nothing (not an error) when the resource does not exist or
`create` is false. -/
theorem c8_get_characterization (st : DocumentStore)
    (disk : String → Option (List Char)) (uri : Uri) (create : Bool) :
    (∀ p, assocGet st.providers uri.scheme = some p →
      DocumentStore.get st disk uri create = (p uri, st)) ∧
    (assocGet st.providers uri.scheme = none →
      (∀ d, assocGet st.docs (uriStr uri) = some d →
        DocumentStore.get st disk uri create = (some d, st)) ∧
      (assocGet st.docs (uriStr uri) = none →
        (create = false → DocumentStore.get st disk uri create = (none, st)) ∧
        (disk uri.path = none → DocumentStore.get st disk uri create = (none, st)) ∧
        (∀ text, create = true → disk uri.path = some text →
          DocumentStore.get st disk uri create =
            (some (mkTextDocument uri text),
             ⟨dictSet st.docs (uriStr uri) (mkTextDocument uri text),
              st.providers⟩)))) := by
  refine ⟨?_, ?_⟩
  · intro p hp
    simp [DocumentStore.get, hp]
  · intro hnp
    refine ⟨?_, ?_⟩
    · intro d hd
      simp [DocumentStore.get, hnp, hd]
    · intro hnd
      refine ⟨?_, ?_, ?_⟩
      · intro hc
        simp [DocumentStore.get, hnp, hnd, hc]
      · intro hdisk
        cases create with
        | false => simp [DocumentStore.get, hnp, hnd]
        | true => simp [DocumentStore.get, hnp, hnd, DocumentStore.from_disk, hdisk]
      · intro text hc hdisk
        simp [DocumentStore.get, hnp, hnd, hc, DocumentStore.from_disk, hdisk]

/-- Witness for C8 (amended): a store with no providers and no cached
buffers materializes a one-line file from disk and caches it. -/
theorem c8_get_characterization_witness :
    DocumentStore.get ⟨[], []⟩
        (fun p => if p = "/tmp/a.conf" then some ['x'] else none)
        (Uri.file "/tmp/a.conf") true =
      (some (mkTextDocument (Uri.file "/tmp/a.conf") ['x']),
       ⟨dictSet [] (uriStr (Uri.file "/tmp/a.conf"))
          (mkTextDocument (Uri.file "/tmp/a.conf") ['x']), []⟩) :=
  (((c8_get_characterization ⟨[], []⟩
      (fun p => if p = "/tmp/a.conf" then some ['x'] else none)
      (Uri.file "/tmp/a.conf") true).2 rfl).2 rfl).2.2 ['x'] rfl rfl

/-! ## Kconfig data model (`kconfiglsp.py`) -/

/-- Python exceptions that the embedded code can raise.  `rpcError` is the
`RPCError` exception class with its domain error code
(`UNKNOWN_NODE = 1`, `DESYNC = 2`, `PARSING_FAILED = 3`). -/
inductive PyExc
  | typeError
  | valueError
  | keyError
  | indexError
  | attributeError
  | rpcError (code : Int)
deriving DecidableEq

/-- The node-identity token delimiter `ID_SEP = '@'`. -/
def ID_SEP : Char := '@'

/-- Symbol types of the external kconfiglib engine. -/
inductive SymType
  | UNKNOWN
  | BOOL
  | TRISTATE
  | STRING
  | INT
  | HEX
deriving DecidableEq

/-- `kconfiglib.TYPE_TO_STR`. -/
def TYPE_TO_STR : SymType → String
  | .UNKNOWN => "unknown"
  | .BOOL => "bool"
  | .TRISTATE => "tristate"
  | .STRING => "string"
  | .INT => "int"
  | .HEX => "hex"

/-- Tristate values 0/1/2. -/
inductive TriVal
  | n
  | m
  | y
deriving DecidableEq

/-- `kconfiglib.TRI_TO_STR`. -/
def TRI_TO_STR : TriVal → String
  | .n => "n"
  | .m => "m"
  | .y => "y"

/-- A kconfiglib attribute value as a Python object: `None`, a tristate
integer 0/1/2, or a string (`sym.user_value` and `sym._str_default()` range
over these; Python `==` between different shapes is `False`). -/
inductive KVal
  | vnone
  | vtri (t : TriVal)
  | vstr (s : String)
deriving DecidableEq

/-- One conjunct of the `direct_dep` of a symbol (after `kconfiglib.split_expr`
with `AND`), as consumed by `_missing_deps` and the fix-action synthesis in
`check_assignment`: its `expr_value`, whether it is a BOOL-typed `Symbol`
instance, its `name`, and its `expr_str` rendering. -/
structure Dep where
  value : Nat
  isBoolSym : Bool
  name : String
  exprStr : String
deriving DecidableEq

/-- What a `MenuNode.item` can be: the MENU/COMMENT sentinels, a `Symbol`
(identified by name; the symbol object itself lives in the `syms` table),
a `Choice`, or anything else. -/
inductive NodeItem
  | menu
  | symbol (name : String)
  | choice
  | comment
  | other
deriving DecidableEq

/-- A kconfiglib `MenuNode` view.  `nid` stands for the Python object
identity that default `==` and `list.index` compare; distinct tree nodes
carry distinct `nid`s.  `prompt` is `Some text` when the node has a
`(text, cond)` prompt tuple (a non-empty tuple is truthy). -/
structure MenuNode where
  nid : Nat
  item : NodeItem
  filename : String
  linenr : Nat
  prompt : Option String
deriving DecidableEq

/-- A kconfiglib `Symbol` view: exactly the attributes the embedded checks
read. -/
structure Symbol where
  name : String
  stype : SymType
  user_value : KVal
  str_value : String
  nodes : List MenuNode
  str_default : KVal
  direct_dep : List Dep
deriving DecidableEq

/-- The evaluated kconfig tree attributes of a successfully parsed
`Kconfig` object (`top_node`, `menus`, `choices`, `comments`, `syms`).
The stdout-diagnostics dict of the wrapper is not read by any verified
operation and is elided. -/
structure Kcfg where
  top_node : MenuNode
  menus : List MenuNode
  choices : List MenuNode
  comments : List MenuNode
  syms : List (String × Symbol)
deriving DecidableEq

/-- The `Kconfig` wrapper object held in `KconfigContext._kconfig`: its
`valid` flag, and the tree attributes, which only exist after a successful
`_init` (`none` models the attributes being unset after a failed parse, so
that reading them raises `AttributeError`). -/
structure KconfigObj where
  valid : Bool
  tree : Option Kcfg
deriving DecidableEq

/-- The `modified` attribute of a context: `parse()` assigns a dict to it,
while `set()` calls `append` on it; only a Python list has `append`. -/
inductive PyObj
  | dict (keys : List String)
  | list (items : List String)
deriving DecidableEq

/-- Python attribute call `obj.append(x)`: lists append; a dict has no
`append` attribute, so the call raises `AttributeError`. -/
def pyAppend : PyObj → String → Except PyExc PyObj
  | .list items, x => .ok (.list (items ++ [x]))
  | .dict _, _ => .error .attributeError

/-- Python `x in obj`: key membership for a dict, element membership for a
list. -/
def pyContains (x : String) : PyObj → Bool
  | .dict keys => keys.contains x
  | .list items => items.contains x

/-- A parsed `CONFIG_X=v` line (`kconfiglsp.py` `ConfEntry`): name without
the `CONFIG_` prefix, location of the name, the raw value text
(`assignment.strip()`; the entry regex leaves no surrounding whitespace),
and the range of the value text.  `locId` stands for the Python object
identity of the `Location` held in `loc`: `Location` defines no `__eq__`,
so the `self.loc == o.loc` comparison in `ConfEntry.__eq__` is identity,
and every `ConfFile.entries()` call builds fresh `Location` objects, so
entries produced by different calls carry distinct `locId` values even
when they denote the same position. -/
structure ConfEntry where
  name : String
  loc : Location
  raw : String
  value_range : Range
  locId : Nat
deriving DecidableEq

/-- Python `ConfEntry.__eq__`: `isinstance` check plus `self.loc == o.loc`,
which is `Location` object identity (the class has no `__eq__`). -/
def pyConfEntryEq (a b : ConfEntry) : Bool := a.locId = b.locId

/-- `ConfEntry.range`: range of the name text. -/
def ConfEntry.range (e : ConfEntry) : Range := e.loc.range

/-- `ConfEntry.full_range`: from the name start to the value end. -/
def ConfEntry.full_range (e : ConfEntry) : Range :=
  ⟨e.range.start, e.value_range.stop⟩

/-- `ConfEntry.line_range`: the whole line holding the entry. -/
def ConfEntry.line_range (e : ConfEntry) : Range :=
  ⟨⟨e.range.start.line, 0⟩, ⟨e.range.start.line + 1, 0⟩⟩

/-- `ConfEntry.is_string`: `raw.startswith('"') and raw.endswith('"')`
(expressed on the character list so that it evaluates in the kernel). -/
def ConfEntry.is_string (e : ConfEntry) : Bool :=
  match e.raw.data with
  | [] => false
  | c :: cs => c = '"' && (c :: cs).getLast? = some '"' 

/-- `ConfEntry.is_bool`. -/
def ConfEntry.is_bool (e : ConfEntry) : Bool :=
  e.raw = "y" || e.raw = "n"

/-- Hex digit test matching the regex class `[a-fA-F\d]`. -/
def isHexDigitPy (c : Char) : Bool :=
  c.isDigit || ('a' ≤ c && c ≤ 'f') || ('A' ≤ c && c ≤ 'F')

/-- `ConfEntry.is_hex`: `re.match` of `0x[a-fA-F\d]+` — a `0x` lead-in
followed by at least one hex digit (a prefix match). -/
def ConfEntry.is_hex (e : ConfEntry) : Bool :=
  match e.raw.data with
  | '0' :: 'x' :: c :: _ => isHexDigitPy c
  | _ => false

/-- `ConfEntry.is_int`: `re.match` of `\d+` — starts with a digit. -/
def ConfEntry.is_int (e : ConfEntry) : Bool :=
  match e.raw.data with
  | c :: _ => c.isDigit
  | _ => false

/-- Numeric value of a hex digit character. -/
def hexDigitVal (c : Char) : Nat :=
  if c.isDigit then c.toNat - 48
  else if 'a' ≤ c && c ≤ 'f' then c.toNat - 87
  else c.toNat - 55

/-- Accumulating hexadecimal parser. -/
def parseHexAux (acc : Nat) : List Char → Option Nat
  | [] => some acc
  | c :: rest =>
    if isHexDigitPy c then parseHexAux (acc * 16 + hexDigitVal c) rest else none

/-- Parse a non-empty all-hex-digit string; `none` models the `ValueError`
raised by `int(s, 16)` on anything else. -/
def parseHexDigits : List Char → Option Nat
  | [] => none
  | s => parseHexAux 0 s

/-- A Python value produced by `ConfEntry.value`: a string, an int, or
`None` for an unrecognized literal shape. -/
inductive PyVal
  | vstr (s : String)
  | vint (n : Int)
  | pynone
deriving DecidableEq

/-- Python rendering of a `PyVal` inside an f-string. -/
def pyValStr : PyVal → String
  | .vstr s => s
  | .vint n => toString n
  | .pynone => "None"

/-- `ConfEntry.value`: the value as seen by kconfiglib — quotes stripped
for strings, `int(raw, 16)` for hex literals, `int(raw)` for ints
(either may raise `ValueError` on a truncated match such as `0x1G` or
`12ab`), `None` otherwise. -/
def ConfEntry.value (e : ConfEntry) : Except PyExc PyVal :=
  if e.is_string then .ok (.vstr (String.mk ((e.raw.data.drop 1).dropLast)))
  else if e.is_bool then .ok (.vstr e.raw)
  else if e.is_hex then
    match e.raw.data with
    | '0' :: 'x' :: ds =>
      match parseHexDigits ds with
      | some n => .ok (.vint n)
      | none => .error .valueError
    | _ => .error .valueError
  else if e.is_int then
    match parseDigits e.raw.data with
    | some n => .ok (.vint n)
    | none => .error .valueError
  else .ok .pynone

/-- `ConfEntry.type`: the human-readable literal type, derived purely from
the lexical shape (checked in the order string, hex, int, bool). -/
def ConfEntry.typeStr (e : ConfEntry) : String :=
  if e.is_string then TYPE_TO_STR .STRING
  else if e.is_hex then TYPE_TO_STR .HEX
  else if e.is_int then TYPE_TO_STR .INT
  else if e.is_bool then TYPE_TO_STR .BOOL
  else TYPE_TO_STR .UNKNOWN

/-- `ConfEntry.remove(title)`: a code action that deletes the line of the
entry. -/
def ConfEntry.remove (e : ConfEntry) (title : String) : CodeAction :=
  ⟨title, WorkspaceEdit.add ⟨[]⟩ e.loc.uri (TextEdit.remove e.line_range)⟩

/-- A `.conf` override file (`kconfiglsp.py` `ConfFile`): its URI, the
entry list its `entries()` method derives from the backing document (the
claims quantify over the parsed entries, so the regex scan itself is not
re-modelled), and its mutable diagnostics list. -/
structure ConfFile where
  uri : Uri
  entries : List ConfEntry
  diags : List Diagnostic
deriving DecidableEq

/-- One Kconfig session (`kconfiglsp.py` `KconfigContext`): version
counter, the `_kconfig` wrapper, the stored menu id, the `modified`
attribute, the command-level and per-URI diagnostic buckets, and the
override files. -/
structure KconfigContext where
  version : Nat
  kconfig : Option KconfigObj
  menu : Option (List Char)
  modified : PyObj
  cmd_diags : List Diagnostic
  kconfig_diags : List (String × List Diagnostic)
  conf_files : List ConfFile
deriving DecidableEq

/-- `KconfigContext.valid`: `self._kconfig and self._kconfig.valid` (an
object is truthy). -/
def KconfigContext.valid (ctx : KconfigContext) : Bool :=
  match ctx.kconfig with
  | none => false
  | some o => o.valid

/-- `KconfigContext.clear_diags()`: clears the per-URI and command buckets
and the diagnostics of each conf file. -/
def KconfigContext.clear_diags (ctx : KconfigContext) : KconfigContext :=
  { ctx with kconfig_diags := [], cmd_diags := [],
             conf_files := ctx.conf_files.map (fun f => ⟨f.uri, f.entries, []⟩) }

/-- `KconfigContext.kconfig_diag(uri, diag)`: append under `str(uri)`. -/
def KconfigContext.kconfig_diag (ctx : KconfigContext) (uri : Uri) (d : Diagnostic) :
    KconfigContext :=
  { ctx with kconfig_diags := assocAppend ctx.kconfig_diags (uriStr uri) d }

/-! ## Node identity scheme (`_node_id` / `find_node` / `get_menu`) -/

/-- An element of the `parts` list built in `_node_id`: a Python `str` or a
Python `int` (the source appends raw ints for CHOICE/COMMENT/UNKNOWN
discriminators). -/
inductive IdPart
  | s (cs : List Char)
  | i (n : Nat)
deriving DecidableEq

/-- Whether an `IdPart` is a string. -/
def IdPart.isStr : IdPart → Bool
  | .s _ => true
  | .i _ => false

/-- The character content of an `IdPart` (unused for ints). -/
def IdPart.chars : IdPart → List Char
  | .s cs => cs
  | .i _ => []

/-- Python `sep.join(parts)`: raises `TypeError` when any element is not a
string. -/
def pyJoinParts (sep : Char) (parts : List IdPart) : Except PyExc (List Char) :=
  if parts.all IdPart.isStr then .ok (joinSep sep (parts.map IdPart.chars))
  else .error .typeError

/-- Python `list.index(x)`: first index of `x`, `ValueError` when absent. -/
def pyIndexOf {α : Type} [DecidableEq α] : List α → α → Except PyExc Nat
  | [], _ => .error .valueError
  | y :: rest, x => if y = x then .ok 0 else (pyIndexOf rest x).map (· + 1)

/-- Python `l[i]` for a non-negative literal index: `IndexError` when out
of range. -/
def pyElem {α : Type} (l : List α) (i : Nat) : Except PyExc α :=
  match l.get? i with
  | some x => .ok x
  | none => .error .indexError

/-- Python `l[i]` for an int index, with negative-index semantics. -/
def pyListGet {α : Type} (l : List α) (i : Int) : Except PyExc α :=
  if 0 ≤ i then pyElem l i.toNat
  else if (-i).toNat ≤ l.length then pyElem l (l.length - (-i).toNat)
  else .error .indexError

/-- Python `int(s)` raising `ValueError` on failure. -/
def pyIntE (s : List Char) : Except PyExc Int :=
  match pyInt s with
  | some v => .ok v
  | none => .error .valueError

/-- Python `d[key]` on a dict: `KeyError` when absent. -/
def dictGetExc {α : Type} (m : List (String × α)) (key : String) : Except PyExc α :=
  match assocGet m key with
  | some v => .ok v
  | none => .error .keyError

/-- Read a tree attribute of `self._kconfig`: `AttributeError` when the
wrapper is `None` or when `_init` never ran to completion. -/
def treeOf (ctx : KconfigContext) : Except PyExc Kcfg :=
  match ctx.kconfig with
  | none => .error .attributeError
  | some o =>
    match o.tree with
    | none => .error .attributeError
    | some k => .ok k

/-- The attribute chain `node.item.nodes` for a symbol node.  kconfiglib
maintains `node.item` as the very object stored in `syms[name]`, so the
embedding reads the node list through the symbol table; a name absent from
the table yields `[]`, making the subsequent `.index` fail, which cannot
arise for nodes of a well-formed tree. -/
def symNodesOf (k : Kcfg) (name : String) : List MenuNode :=
  match assocGet k.syms name with
  | some s => s.nodes
  | none => []

/-- The kind tag and discriminators of `_node_id` (everything after the
version): MAINMENU for the top node, MENU/SYM/CHOICE/COMMENT with ordinal
discriminators, UNKNOWN with filename and line.  The CHOICE, COMMENT and
UNKNOWN branches put raw ints in the list, exactly as the source does. -/
def node_id_parts (k : Kcfg) (node : MenuNode) : Except PyExc (List IdPart) :=
  if node = k.top_node then .ok [.s "MAINMENU".data]
  else if node.item = .menu then
    match pyIndexOf k.menus node with
    | .error e => .error e
    | .ok i => .ok [.s "MENU".data, .s (natToChars i)]
  else
    match node.item with
    | .symbol name =>
      match pyIndexOf (symNodesOf k name) node with
      | .error e => .error e
      | .ok i => .ok [.s "SYM".data, .s name.data, .s (natToChars i)]
    | .choice =>
      match pyIndexOf k.choices node with
      | .error e => .error e
      | .ok i => .ok [.s "CHOICE".data, .i i]
    | .comment =>
      match pyIndexOf k.comments node with
      | .error e => .error e
      | .ok i => .ok [.s "COMMENT".data, .i i]
    | _ => .ok [.s "UNKNOWN".data, .s node.filename.data, .i node.linenr]

/-- `KconfigContext._node_id(node)`: the empty string when `_kconfig` is
`None`; otherwise the version is prepended to the kind parts and the list
is joined with `ID_SEP` (raising `TypeError` when a part is an int). -/
def node_id (ctx : KconfigContext) (node : MenuNode) : Except PyExc (List Char) :=
  match ctx.kconfig with
  | none => .ok []
  | some o =>
    match o.tree with
    | none => .error .attributeError
    | some k =>
      match node_id_parts k node with
      | .error e => .error e
      | .ok parts => pyJoinParts ID_SEP (IdPart.s (natToChars ctx.version) :: parts)

/-- The body of `find_node` after the destructuring
`[version, type, *parts] = id.split(ID_SEP)` succeeded. -/
def find_node_parsed (ctx : KconfigContext) (version ptype : List Char)
    (parts : List (List Char)) : Except PyExc (Option MenuNode) :=
  match pyInt version with
  | none => .error .valueError
  | some v =>
    if v ≠ (ctx.version : Int) then .ok none
    else if ptype = "MENU".data then do
      let k ← treeOf ctx
      let p0 ← pyElem parts 0
      let i ← pyIntE p0
      let nd ← pyListGet k.menus i
      return some nd
    else if ptype = "SYM".data then do
      let k ← treeOf ctx
      let p0 ← pyElem parts 0
      let s ← dictGetExc k.syms (String.mk p0)
      let p1 ← pyElem parts 1
      let i ← pyIntE p1
      let nd ← pyListGet s.nodes i
      return some nd
    else if ptype = "CHOICE".data then do
      let k ← treeOf ctx
      let p0 ← pyElem parts 0
      let i ← pyIntE p0
      let nd ← pyListGet k.choices i
      return some nd
    else if ptype = "COMMENT".data then do
      let k ← treeOf ctx
      let p0 ← pyElem parts 0
      let i ← pyIntE p0
      let nd ← pyListGet k.comments i
      return some nd
    else if ptype = "MAINMENU".data then do
      let k ← treeOf ctx
      return some k.top_node
    else return none

/-- `KconfigContext.find_node(id)`: split the token on `ID_SEP`; the
destructuring needs at least two pieces (else `ValueError`); a version
mismatch returns `None` (the source comments that the positional IDs are
only meaningful for an unchanged tree); otherwise the kind branches index
into the current tree. -/
def find_node (ctx : KconfigContext) (id : List Char) : Except PyExc (Option MenuNode) :=
  match splitOnSep ID_SEP id with
  | version :: ptype :: parts => find_node_parsed ctx version ptype parts
  | _ => .error .valueError

/-- Resolution part of `get_menu` once an id is in hand: a node that fails
to resolve yields `None`; a node that does resolve reaches
`KconfigMenu(node, id)`, which passes two arguments to the three-argument
constructor `KconfigMenu.__init__(self, ctx, node, id)` and raises
`TypeError`. -/
def get_menu_resolved (ctx : KconfigContext) (id : List Char) :
    Except PyExc (Option (MenuNode × List Char)) :=
  match find_node ctx id with
  | .error e => .error e
  | .ok none => .ok none
  | .ok (some _) => .error .typeError

/-- The `if not id:` fallback of `get_menu`: use the stored menu id, or
return `None` when there is none (`None` and the empty string are falsy). -/
def get_menu_stored (ctx : KconfigContext) :
    Except PyExc (Option (MenuNode × List Char)) :=
  match ctx.menu with
  | none => .ok none
  | some m => if m = [] then .ok none else get_menu_resolved ctx m

/-- `KconfigContext.get_menu(id)`. -/
def get_menu (ctx : KconfigContext) (id : Option (List Char)) :
    Except PyExc (Option (MenuNode × List Char)) :=
  match id with
  | none => get_menu_stored ctx
  | some s => if s = [] then get_menu_stored ctx else get_menu_resolved ctx s

/-! ## Claims C1 and C2: stale node-identity tokens -/

theorem splitOnSep_two_ne_nil (sep : Char) (tok v t : List Char)
    (rest : List (List Char)) (hsplit : splitOnSep sep tok = v :: t :: rest) :
    tok ≠ [] := by
  intro h
  rw [h] at hsplit
  have := congrArg List.length hsplit
  simp [splitOnSep] at this

theorem find_node_version_mismatch (ctx : KconfigContext) (tok v t : List Char)
    (rest : List (List Char)) (n : Int)
    (hsplit : splitOnSep ID_SEP tok = v :: t :: rest)
    (hv : pyInt v = some n) (hne : n ≠ (ctx.version : Int)) :
    find_node ctx tok = .ok none := by
  unfold find_node
  rw [hsplit]
  show find_node_parsed ctx v t rest = Except.ok none
  unfold find_node_parsed
  rw [hv]
  simp [hne]

/-- Sample tree node used by concrete instances below: the only definition
site of the BOOL symbol `FOO`. -/
def sampleNode : MenuNode := ⟨1, .symbol "FOO", "Kconfig", 5, some "Foo prompt"⟩

/-- Sample symbol `FOO`. -/
def sampleSym : Symbol := ⟨"FOO", .BOOL, .vnone, "n", [sampleNode], .vnone, []⟩

/-- Sample evaluated tree holding `FOO`. -/
def sampleTree : Kcfg :=
  ⟨⟨0, .menu, "Kconfig", 1, none⟩, [], [], [], [("FOO", sampleSym)]⟩

/-- Sample context at a given version whose evaluation is `sampleTree`. -/
def sampleCtx (v : Nat) : KconfigContext :=
  ⟨v, some ⟨true, some sampleTree⟩, none, .dict [], [], [], []⟩

/-- C1: the claim as stated is false on the code.  In a session at version
1, resolving the stale token `0@MAINMENU` (and fetching its menu) returns
`None` — the version check in `find_node` returns `None` rather than raising,
so the failure is indistinguishable from "not found" and the Desync error
code (`RPCError(2)`) is never surfaced. -/
theorem c1_stale_token_counterexample :
    find_node (sampleCtx 1) "0@MAINMENU".data = .ok none ∧
    get_menu (sampleCtx 1) (some "0@MAINMENU".data) = .ok none := by
  constructor
  · rfl
  · rfl

/-- C1 (amended): for every session and every token whose leading version
segment parses to an integer different from the current session version,
resolution yields no node: `find_node` returns `None` and `get_menu`
returns `None`; no Desync error condition is raised. -/
theorem c1_stale_token_silently_none (ctx : KconfigContext) (tok v t : List Char)
    (rest : List (List Char)) (n : Int)
    (hsplit : splitOnSep ID_SEP tok = v :: t :: rest)
    (hv : pyInt v = some n) (hne : n ≠ (ctx.version : Int)) :
    find_node ctx tok = .ok none ∧ get_menu ctx (some tok) = .ok none := by
  have hfn := find_node_version_mismatch ctx tok v t rest n hsplit hv hne
  refine ⟨hfn, ?_⟩
  have htok : tok ≠ [] := splitOnSep_two_ne_nil ID_SEP tok v t rest hsplit
  simp only [get_menu]
  rw [if_neg htok]
  unfold get_menu_resolved
  rw [hfn]

/-- Witness for C1 (amended): the version-5 session rejects the version-3
symbol token silently. -/
theorem c1_stale_token_silently_none_witness :
    splitOnSep ID_SEP "3@SYM@FOO@0".data =
      [['3'], "SYM".data, "FOO".data, ['0']] ∧
    pyInt ['3'] = some 3 ∧
    (3 : Int) ≠ (((sampleCtx 5).version : Nat) : Int) ∧
    find_node (sampleCtx 5) "3@SYM@FOO@0".data = .ok none ∧
    get_menu (sampleCtx 5) (some "3@SYM@FOO@0".data) = .ok none :=
  ⟨by decide, by decide, by decide,
    (c1_stale_token_silently_none (sampleCtx 5) "3@SYM@FOO@0".data
      ['3'] "SYM".data ["FOO".data, ['0']] 3 (by decide) (by decide) (by decide)).1,
    (c1_stale_token_silently_none (sampleCtx 5) "3@SYM@FOO@0".data
      ['3'] "SYM".data ["FOO".data, ['0']] 3 (by decide) (by decide) (by decide)).2⟩

theorem node_id_parts_ne_nil (k : Kcfg) (node : MenuNode) (parts : List IdPart)
    (h : node_id_parts k node = .ok parts) : parts ≠ [] := by
  unfold node_id_parts at h
  split at h
  · simp only [Except.ok.injEq] at h
    subst h
    simp
  · split at h
    · split at h
      · exact Except.noConfusion h
      · simp only [Except.ok.injEq] at h
        subst h
        simp
    · split at h
      · split at h
        · exact Except.noConfusion h
        · simp only [Except.ok.injEq] at h
          subst h
          simp
      · split at h
        · exact Except.noConfusion h
        · simp only [Except.ok.injEq] at h
          subst h
          simp
      · split at h
        · exact Except.noConfusion h
        · simp only [Except.ok.injEq] at h
          subst h
          simp
      · simp only [Except.ok.injEq] at h
        subst h
        simp

theorem pyJoinParts_cons_shape (sep : Char) (ver : List Char) (parts : List IdPart)
    (tok : List Char) (hne : parts ≠ [])
    (h : pyJoinParts sep (IdPart.s ver :: parts) = .ok tok) :
    ∃ rest, tok = ver ++ sep :: rest := by
  unfold pyJoinParts at h
  split at h
  · simp only [Except.ok.injEq] at h
    subst h
    cases hp : parts with
    | nil => exact absurd hp hne
    | cons q qs =>
      exact ⟨joinSep sep ((q :: qs).map IdPart.chars), rfl⟩
  · exact Except.noConfusion h

theorem at_not_mem_natToChars (n : Nat) : ID_SEP ∉ natToChars n := by
  intro h
  exact natToChars_no_sep n ID_SEP h (by decide)

/-- C2: version gating.  A token encoded by `_node_id` while the session
is at version `v` (any kind: MAINMENU, MENU, SYM, CHOICE, COMMENT or
UNKNOWN, and also the empty token produced without a parsed tree) resolves
to no node in any session state whose version is `v + 1`: `find_node`
never returns a node of the rebuilt tree for it. -/
theorem c2_version_gating (ctx ctxNew : KconfigContext) (node : MenuNode)
    (tok : List Char) (henc : node_id ctx node = .ok tok)
    (hver : ctxNew.version = ctx.version + 1) (nd : MenuNode) :
    find_node ctxNew tok ≠ .ok (some nd) := by
  intro hcontra
  cases hk : ctx.kconfig with
  | none =>
    simp only [node_id, hk, Except.ok.injEq] at henc
    subst henc
    simp [find_node, splitOnSep] at hcontra
  | some o =>
    cases ht : o.tree with
    | none =>
      simp [node_id, hk, ht] at henc
    | some k =>
      cases hp : node_id_parts k node with
      | error e =>
        simp [node_id, hk, ht, hp] at henc
      | ok parts =>
        simp only [node_id, hk, ht, hp] at henc
        obtain ⟨rest, htok⟩ := pyJoinParts_cons_shape ID_SEP (natToChars ctx.version)
          parts tok (node_id_parts_ne_nil k node parts hp) henc
        subst htok
        cases hr : splitOnSep ID_SEP rest with
        | nil => exact absurd hr (splitOnSep_ne_nil ID_SEP rest)
        | cons rh rt =>
          have hsplit2 : splitOnSep ID_SEP (natToChars ctx.version ++ ID_SEP :: rest) =
              natToChars ctx.version :: rh :: rt := by
            rw [splitOnSep_append_sep _ _ _ (at_not_mem_natToChars ctx.version), hr]
          have hne : ((ctx.version : Nat) : Int) ≠ ((ctxNew.version : Nat) : Int) := by
            rw [hver]
            push_cast
            omega
          have hok := find_node_version_mismatch ctxNew _ _ _ _ ((ctx.version : Nat) : Int)
            hsplit2 (pyInt_natToChars ctx.version) hne
          rw [hok] at hcontra
          simp at hcontra

/-- Witness for C2: the symbol token `3@SYM@FOO@0` encoded at version 3
does not resolve at version 4. -/
theorem c2_version_gating_witness :
    node_id (sampleCtx 3) sampleNode = .ok "3@SYM@FOO@0".data ∧
    (sampleCtx 4).version = (sampleCtx 3).version + 1 ∧
    find_node (sampleCtx 4) "3@SYM@FOO@0".data ≠ .ok (some sampleNode) :=
  ⟨by decide, by decide,
    c2_version_gating (sampleCtx 3) (sampleCtx 4) sampleNode "3@SYM@FOO@0".data
      (by decide) (by decide) sampleNode⟩

/-! ## Claim C3: `KconfigContext.parse` -/

/-- Word characters of the regex class `[\w\/\\-]` used to strip GCC-style
location prefixes from `KconfigError` messages. -/
def isMsgWordChar (c : Char) : Bool :=
  c.isAlphanum || c = '_' || c = '/' || c = '\\' || c = '-'

/-- ASCII whitespace as matched by the regex `\s`. -/
def isPySpace (c : Char) : Bool :=
  c = ' ' || c = '\t' || c = '\n' || c = '\r' || c = Char.ofNat 11 || c = Char.ofNat 12

/-- The `([\w\/\\-]+:\d+:\s*)?` group of the message-stripping regex in
`KconfigContext.parse`: drop a leading `path:line:` (plus trailing
whitespace) when present, else leave the string unchanged.  The regex is
deterministic here because neither character class contains `:`. -/
def stripGccLoc (s : List Char) : List Char :=
  let w := s.takeWhile isMsgWordChar
  if w.isEmpty then s
  else
    match s.drop w.length with
    | ':' :: r2 =>
      let d := r2.takeWhile Char.isDigit
      if d.isEmpty then s
      else
        match r2.drop d.length with
        | ':' :: r3 => r3.dropWhile isPySpace
        | _ => s
    | _ => s

/-- Group 3 of the message regex (optional location group, optional
`error:` tag, whitespace, then the rest):
after the optional location prefix, an optional literal `error:`, then
whitespace; `.*` stops at the first newline. -/
def stripErrMsg (s : List Char) : List Char :=
  let s1 := stripGccLoc s
  let s2 := if s1.take 6 = "error:".data then s1.drop 6 else s1
  let s3 := s2.dropWhile isPySpace
  s3.takeWhile (fun c => c ≠ '\n')

/-- String-level wrapper for `stripErrMsg`. -/
def stripErrMsgS (s : String) : String := String.mk (stripErrMsg s.data)

/-- Outcome of the external kconfiglib evaluation run by `Kconfig.parse`
(`self._init`), supplied as an oracle: success (whether
`unique_defined_syms` is non-empty, plus the resulting tree attributes), a
`KconfigError` (with `self._kconfig.loc()` at the time of the failure and
`str(e)`), or any other exception. -/
inductive ParseOutcome
  | ok (hasSyms : Bool) (tree : Kcfg)
  | kconfigError (loc : Option Location) (msg : String)
  | otherError (msg : String)
deriving DecidableEq

/-- `KconfigContext.parse()`: reset `menu` and `modified`, clear all
diagnostics, build a fresh `Kconfig` wrapper, run the evaluation; a
`KconfigError` becomes an error diagnostic at the reported location (or a
command-level one at `(0, 0)`), any other exception becomes a
command-level diagnostic; the version is incremented on every path. -/
def KconfigContext.parse (ctx : KconfigContext) (outcome : ParseOutcome) :
    KconfigContext :=
  let ctx1 := KconfigContext.clear_diags
    { ctx with menu := none, modified := PyObj.dict [] }
  let ctx2 :=
    match outcome with
    | .ok hasSyms tree =>
      { ctx1 with kconfig := some ⟨hasSyms, some tree⟩ }
    | .kconfigError loc msg =>
      let ctxk := { ctx1 with kconfig := some ⟨false, none⟩ }
      match loc with
      | some l => ctxk.kconfig_diag l.uri (Diagnostic.err (stripErrMsgS msg) l.range)
      | none =>
        { ctxk with cmd_diags := ctxk.cmd_diags ++
            [Diagnostic.err (stripErrMsgS msg) ⟨⟨0, 0⟩, ⟨0, 0⟩⟩] }
    | .otherError msg =>
      let ctxo := { ctx1 with kconfig := some ⟨false, none⟩ }
      { ctxo with cmd_diags := ctxo.cmd_diags ++
          [Diagnostic.err ("Kconfig failed: " ++ msg) ⟨⟨0, 0⟩, ⟨0, 0⟩⟩] }
  { ctx2 with version := ctx2.version + 1 }

/-- C3: every call to `parse()` increments the version by exactly one — on
success and on both failure paths; on a recoverable evaluation failure
(`KconfigError`) `valid` stays false and the failure becomes an error
diagnostic in the per-URI bucket at the reported definition location when
one is known, else a command-level diagnostic at `(0, 0)`; a non-Kconfig
exception also leaves `valid` false and lands at `(0, 0)`. -/
theorem c3_parse_version_and_diags (ctx : KconfigContext) (outcome : ParseOutcome) :
    (ctx.parse outcome).version = ctx.version + 1 ∧
    (∀ l msg, outcome = .kconfigError (some l) msg →
      (ctx.parse outcome).valid = false ∧
      assocGet (ctx.parse outcome).kconfig_diags (uriStr l.uri) =
        some [Diagnostic.err (stripErrMsgS msg) l.range]) ∧
    (∀ msg, outcome = .kconfigError none msg →
      (ctx.parse outcome).valid = false ∧
      (ctx.parse outcome).cmd_diags =
        [Diagnostic.err (stripErrMsgS msg) ⟨⟨0, 0⟩, ⟨0, 0⟩⟩]) ∧
    (∀ msg, outcome = .otherError msg →
      (ctx.parse outcome).valid = false ∧
      (ctx.parse outcome).cmd_diags =
        [Diagnostic.err ("Kconfig failed: " ++ msg) ⟨⟨0, 0⟩, ⟨0, 0⟩⟩]) := by
  refine ⟨?_, ?_, ?_, ?_⟩
  · cases outcome with
    | ok hasSyms tree => rfl
    | kconfigError loc msg =>
      cases loc <;>
        simp [KconfigContext.parse, KconfigContext.clear_diags,
          KconfigContext.kconfig_diag]
    | otherError msg => rfl
  · intro l msg hout
    subst hout
    constructor
    · rfl
    · simp [KconfigContext.parse, KconfigContext.clear_diags,
        KconfigContext.kconfig_diag, KconfigContext.valid, assocAppend, assocGet]
  · intro msg hout
    subst hout
    exact ⟨rfl, rfl⟩
  · intro msg hout
    subst hout
    exact ⟨rfl, rfl⟩

/-- Witness for C3 at a concrete context and a located `KconfigError`. -/
theorem c3_parse_version_and_diags_witness :
    ((sampleCtx 7).parse (.kconfigError
        (some ⟨Uri.file "/z/Kconfig", ⟨⟨4, 0⟩, ⟨4, 99999⟩⟩⟩)
        "/z/Kconfig:5: error: bad source")).version = (sampleCtx 7).version + 1 ∧
    ((sampleCtx 7).parse (.kconfigError
        (some ⟨Uri.file "/z/Kconfig", ⟨⟨4, 0⟩, ⟨4, 99999⟩⟩⟩)
        "/z/Kconfig:5: error: bad source")).valid = false ∧
    assocGet ((sampleCtx 7).parse (.kconfigError
        (some ⟨Uri.file "/z/Kconfig", ⟨⟨4, 0⟩, ⟨4, 99999⟩⟩⟩)
        "/z/Kconfig:5: error: bad source")).kconfig_diags
        (uriStr (Uri.file "/z/Kconfig")) =
      some [Diagnostic.err (stripErrMsgS "/z/Kconfig:5: error: bad source")
        ⟨⟨4, 0⟩, ⟨4, 99999⟩⟩] :=
  ⟨(c3_parse_version_and_diags (sampleCtx 7) _).1,
    ((c3_parse_version_and_diags (sampleCtx 7) _).2.1
      ⟨Uri.file "/z/Kconfig", ⟨⟨4, 0⟩, ⟨4, 99999⟩⟩⟩
      "/z/Kconfig:5: error: bad source" rfl).1,
    ((c3_parse_version_and_diags (sampleCtx 7) _).2.1
      ⟨Uri.file "/z/Kconfig", ⟨⟨4, 0⟩, ⟨4, 99999⟩⟩⟩
      "/z/Kconfig:5: error: bad source" rfl).2⟩

/-! ## Claim C10: `KconfigContext.set` and the `modified` dict -/

/-- `KconfigContext.get(name)`: `self._kconfig.syms.get(name)` when the
wrapper exists (`None` otherwise); reading `syms` on a wrapper whose
`_init` failed raises `AttributeError`. -/
def KconfigContext.get (ctx : KconfigContext) (name : String) :
    Except PyExc (Option Symbol) :=
  match ctx.kconfig with
  | none => .ok none
  | some o =>
    match o.tree with
    | none => .error .attributeError
    | some k => .ok (assocGet k.syms name)

/-- `KconfigContext.set(name, val)`: unknown symbols raise
`RPCError(UNKNOWN_NODE = 1)`; when the external `sym.set_value(val)`
(whose verdict is the `setValRes` oracle) accepts the value and the name is
not yet in `modified`, the code calls `self.modified.append(name)` — and
`modified` is the dict assigned by `parse()`. -/
def KconfigContext.set (ctx : KconfigContext) (name : String) (setValRes : Bool) :
    Except PyExc KconfigContext :=
  match ctx.get name with
  | .error e => .error e
  | .ok none => .error (.rpcError 1)
  | .ok (some _) =>
    if setValRes && !(pyContains name ctx.modified) then
      match pyAppend ctx.modified name with
      | .error e => .error e
      | .ok m => .ok { ctx with modified := m }
    else .ok ctx

/-- `KconfigContext.unset(name)`: calls the external `sym.unset_value()`
when the symbol exists; no session state visible here changes. -/
def KconfigContext.unset (ctx : KconfigContext) (name : String) :
    Except PyExc KconfigContext :=
  match ctx.get name with
  | .error e => .error e
  | .ok _ => .ok ctx

/-- C10: `parse()` leaves `modified` as an empty dict, so for any parsed
context and any known symbol name not yet recorded as modified, a setVal
with an accepted value (`set_value` returns truthy) raises
`AttributeError` at `self.modified.append(name)` before completing;
a setVal with a rejected value and an unset complete without raising. -/
theorem c10_set_attribute_error (ctx : KconfigContext) (outcome : ParseOutcome)
    (name : String) (sym : Symbol) (keys : List String)
    (hmod : ctx.modified = PyObj.dict keys)
    (hnot : pyContains name ctx.modified = false)
    (hget : ctx.get name = .ok (some sym)) :
    (ctx.parse outcome).modified = PyObj.dict [] ∧
    ctx.set name true = .error .attributeError ∧
    ctx.set name false = .ok ctx ∧
    ctx.unset name = .ok ctx := by
  refine ⟨?_, ?_, ?_, ?_⟩
  · cases outcome with
    | ok hasSyms tree => rfl
    | kconfigError loc msg =>
      cases loc <;>
        simp [KconfigContext.parse, KconfigContext.clear_diags,
          KconfigContext.kconfig_diag]
    | otherError msg => rfl
  · unfold KconfigContext.set
    rw [hget, hnot]
    simp only [Bool.not_false, Bool.and_true, if_true]
    rw [hmod]
    rfl
  · unfold KconfigContext.set
    rw [hget]
    rfl
  · unfold KconfigContext.unset
    rw [hget]

/-- Witness for C10 at the sample context: setting `FOO` with an accepted
value raises `AttributeError`; a rejected value and an unset complete. -/
theorem c10_set_attribute_error_witness :
    (sampleCtx 3).modified = PyObj.dict [] ∧
    pyContains "FOO" (sampleCtx 3).modified = false ∧
    (sampleCtx 3).get "FOO" = .ok (some sampleSym) ∧
    ((sampleCtx 3).parse (.ok true sampleTree)).modified = PyObj.dict [] ∧
    (sampleCtx 3).set "FOO" true = .error .attributeError ∧
    (sampleCtx 3).set "FOO" false = .ok (sampleCtx 3) ∧
    (sampleCtx 3).unset "FOO" = .ok (sampleCtx 3) := by
  have h := c10_set_attribute_error (sampleCtx 3) (.ok true sampleTree) "FOO"
    sampleSym [] (by decide) (by decide) (by decide)
  exact ⟨by decide, by decide, by decide, h.1, h.2.1, h.2.2.1, h.2.2.2⟩

/-! ## Claim C9: the dispatch loop re-raises handler failures -/

/-- Outcome of invoking one request handler: a result payload, a raised
`RPCError` with its domain code, or any other raised exception. -/
inductive HandlerOutcome
  | ok (result : String)
  | rpcErr (code : Int)
  | exc (e : PyExc)
deriving DecidableEq

/-- What `RPCServer.handle` does with one message: send a response
(possibly carrying an error code), let an exception propagate out of the
dispatch, or send nothing (notification). -/
inductive DispatchResult
  | responded (result : Option String) (errorCode : Option Int)
  | raised (e : PyExc)
  | noReply
deriving DecidableEq

/-- `RPCServer.handle(msg)`: a handler result is answered with `rsp`; a
raised `RPCError` is logged, assigned to the (never-sent) `error` variable
and then re-raised (`raise e`); any other exception is wrapped the same way
and also re-raised, so the `if self._req: self.rsp(result, error)` line is
unreachable on every failure path; an unknown method gets a
METHOD_NOT_FOUND (-32601) error response. -/
def rpcHandle (handlers : List (String × (String → HandlerOutcome)))
    (method : String) (params : String) (isRequest : Bool) : DispatchResult :=
  match assocGet handlers method with
  | some h =>
    match h params with
    | .ok r => if isRequest then .responded (some r) none else .noReply
    | .rpcErr code => .raised (.rpcError code)
    | .exc e => .raised e
  | none =>
    if isRequest then .responded none (some (-32601)) else .noReply

/-- `RPCServer.loop()`: handles messages one at a time; only
`KeyboardInterrupt` is caught, so an exception propagating out of
`handle` terminates the loop, leaving the remaining messages unread. -/
def loopRun (handlers : List (String × (String → HandlerOutcome))) :
    List (String × String × Bool) → List DispatchResult
  | [] => []
  | (method, params, isReq) :: rest =>
    match rpcHandle handlers method params isReq with
    | .raised e => [.raised e]
    | r => r :: loopRun handlers rest

/-- `KconfigServer.handle_search`: the dict subscript on `self.ctx` raises
`KeyError` for an unknown session id (the `if not ctx:` guard below it is
dead: a missing key raises first, and the `KconfigErrorCode.UNKNOWN_CTX`
it names does not exist on the enum). -/
def handle_search_outcome (ctxs : List (String × KconfigContext)) (pctx : String) :
    HandlerOutcome :=
  match assocGet ctxs pctx with
  | none => .exc .keyError
  | some _ => .ok pctx

/-- C9: the claim is contradicted by the code.  A `kconfig/search` request
naming a session id that does not exist makes the handler raise `KeyError`;
`RPCServer.handle` re-raises it instead of answering, and the dispatch loop
— which catches only `KeyboardInterrupt` — terminates without processing
the next message.  Even a handler that raises a proper `RPCError` is
re-raised rather than converted to an error response. -/
theorem c9_handler_error_crashes_loop :
    rpcHandle [("kconfig/search", fun p => handle_search_outcome [] p)]
        "kconfig/search" "file:///missing" true = .raised .keyError ∧
    loopRun [("kconfig/search", fun p => handle_search_outcome [] p)]
        [("kconfig/search", "file:///missing", true),
         ("kconfig/search", "file:///missing", true)] = [.raised .keyError] ∧
    rpcHandle [("kconfig/setVal", fun _ => .rpcErr 1)] "kconfig/setVal" "" true =
      .raised (.rpcError 1) :=
  ⟨rfl, rfl, rfl⟩

/-! ## Lint pipeline (`kconfiglsp.py` checks, claims C4–C6) -/

/-- Hexadecimal digit character (lowercase, as Python `hex`). -/
def hexDigitChar (n : Nat) : Char :=
  if n < 10 then Char.ofNat (48 + n) else Char.ofNat (87 + n)

/-- Structural helper for `hexChars`. -/
def hexCharsFuel : Nat → Nat → List Char
  | 0, n => [hexDigitChar n]
  | fuel + 1, n =>
    if n < 16 then [hexDigitChar n]
    else hexCharsFuel fuel (n / 16) ++ [hexDigitChar (n % 16)]

/-- Python `hex(n)` for an int: `0x` plus lowercase hex digits, with a
leading minus for negatives. -/
def hexStr (n : Int) : String :=
  if n < 0 then "-0x" ++ String.mk (hexCharsFuel (-n).toNat (-n).toNat)
  else "0x" ++ String.mk (hexCharsFuel n.toNat n.toNat)

/-- `check_undefined`: a symbol whose type is UNKNOWN is undefined — an
error diagnostic on the full entry range, no action. -/
def check_undefined (file : ConfFile) (entry : ConfEntry) (sym : Symbol) :
    ConfFile × Bool :=
  if sym.stype = .UNKNOWN then
    ({ file with diags := file.diags ++
        [Diagnostic.err ("Undefined symbol CONFIG_" ++ sym.name) entry.full_range] },
      true)
  else (file, false)

/-- `check_type`: the literal type of the entry disagrees with the declared
symbol type — an error, with a convert-representation action when both
sides are numeric.  `hex(entry.value)` raises `TypeError` on a non-int;
`entry.value` itself may raise `ValueError`. -/
def check_type (file : ConfFile) (entry : ConfEntry) (sym : Symbol) :
    Except PyExc (ConfFile × Bool) :=
  if TYPE_TO_STR sym.stype ≠ entry.typeStr then
    let diag0 := Diagnostic.err ("Invalid type. Expected " ++ TYPE_TO_STR sym.stype)
      entry.full_range
    if (sym.stype = .HEX ∨ sym.stype = .INT) ∧ (entry.is_hex || entry.is_int) then
      match entry.value with
      | .error e => .error e
      | .ok v =>
        match (if sym.stype = .HEX then
            match v with
            | .vint n => Except.ok (hexStr n)
            | _ => Except.error PyExc.typeError
          else Except.ok (pyValStr v)) with
        | .error e => .error e
        | .ok newText =>
          let action : CodeAction :=
            ⟨"Convert value to " ++ TYPE_TO_STR sym.stype,
              WorkspaceEdit.add ⟨[]⟩ entry.loc.uri ⟨entry.value_range, newText⟩⟩
          .ok ({ file with diags := file.diags ++ [diag0.add_action action] }, true)
    else .ok ({ file with diags := file.diags ++ [diag0] }, true)
  else .ok (file, false)

/-- The `TRI_TO_STR[user_value]` conversion at the top of
`check_assignment`: bool/tristate user values must be tristate ints, else
the dict lookup raises `KeyError`. -/
def userValueConv (sym : Symbol) : Except PyExc KVal :=
  if sym.stype = .BOOL ∨ sym.stype = .TRISTATE then
    match sym.user_value with
    | .vtri t => .ok (.vstr (TRI_TO_STR t))
    | _ => .error .keyError
  else .ok sym.user_value

/-- `_missing_deps(sym)`: the conjuncts of `direct_dep` whose
`expr_value` is 0. -/
def missing_deps (sym : Symbol) : List Dep :=
  sym.direct_dep.filter (fun d => d.value = 0)

/-- The fix edits of `check_assignment`: for each missing BOOL-symbol
dependency, either rewrite the value of its existing entry to `y` in place, or
insert a `CONFIG_NAME=y` line immediately before the current entry. -/
def depEdits (file : ConfFile) (entry : ConfEntry) (deps : List Dep) :
    List (String × TextEdit) :=
  deps.filterMap (fun dep =>
    if dep.isBoolSym then
      some (match file.entries.find? (fun e2 => e2.name = dep.name) with
        | some e2 => (dep.name, TextEdit.mk e2.value_range "y")
        | none =>
          (dep.name, TextEdit.mk ⟨entry.line_range.start, entry.line_range.start⟩
            ("CONFIG_" ++ dep.name ++ "=y\n")))
    else none)

/-- The enable actions of `check_assignment`: one action editing the single
dependency, or one combined action applying all edits in reverse discovery
order. -/
def enableActions (fileUri : Uri) (edits : List (String × TextEdit)) :
    List CodeAction :=
  match edits with
  | [] => []
  | [(dn, ed)] =>
    [⟨"Enable CONFIG_" ++ dn ++ " to resolve dependency",
      WorkspaceEdit.add ⟨[]⟩ fileUri ed⟩]
  | _ =>
    [⟨"Enable " ++ toString edits.length ++ " entries to resolve dependencies",
      edits.reverse.foldl (fun w pr => WorkspaceEdit.add w fileUri pr.2) ⟨[]⟩⟩]

/-- Tail of `check_assignment` after the message and severity have been
chosen: the diagnostic is appended (with the missing-dependency text, the
fix actions and the remove action) only when the missing-dependency list is
non-empty; otherwise the function falls off the end with no diagnostic. -/
def check_assignment_deps (file : ConfFile) (entry : ConfEntry) (sym : Symbol)
    (msg : String) (severity : Nat) : ConfFile × Bool :=
  let deps := missing_deps sym
  if deps.isEmpty then (file, false)
  else
    let msg2 := msg ++ " Missing dependencies:\n" ++
      String.intercalate " && " (deps.map Dep.exprStr)
    let edits := depEdits file entry deps
    let actions := enableActions file.uri edits ++ [entry.remove "Remove entry"]
    let diag0 : Diagnostic := ⟨msg2, entry.range, severity, [], [], []⟩
    let diag1 := if severity = SevHINT then diag0.mark_unnecessary else diag0
    let diag2 := actions.foldl Diagnostic.add_action diag1
    ({ file with diags := file.diags ++ [diag2] }, true)

/-- `check_assignment`: compare the converted user value with the value in
effect; an entry whose converted value is `y` and equals `str_value`
returns early; otherwise the message and severity are chosen (already
disabled → Hint, partially effective → Warning with the effective value,
rejected → Warning that the symbol could not be set) and the dependency
tail runs. -/
def check_assignment (file : ConfFile) (entry : ConfEntry) (sym : Symbol) :
    Except PyExc (ConfFile × Bool) :=
  match userValueConv sym with
  | .error e => .error e
  | .ok uv =>
    if uv = KVal.vstr sym.str_value then
      if uv = KVal.vstr "y" then .ok (file, false)
      else .ok (check_assignment_deps file entry sym
        ("CONFIG_" ++ sym.name ++ " was already disabled.") SevHINT)
    else if sym.str_value.length ≠ 0 then
      .ok (check_assignment_deps file entry sym
        ("CONFIG_" ++ sym.name ++ " was assigned the value " ++ entry.raw ++
          ", but got the value " ++ sym.str_value ++ ".") SevWARNING)
    else
      .ok (check_assignment_deps file entry sym
        ("CONFIG_" ++ sym.name ++ " couldn\x27t be set.") SevWARNING)

/-- `check_visibility`: a symbol none of whose nodes has a prompt cannot be
set from config files — a warning with a remove action. -/
def check_visibility (file : ConfFile) (entry : ConfEntry) (sym : Symbol) :
    ConfFile × Bool :=
  if sym.nodes.any (fun n => n.prompt.isSome) then (file, false)
  else
    let diag := (Diagnostic.warn
      ("Symbol CONFIG_" ++ entry.name ++ " cannot be set (has no prompt)")
      entry.full_range).add_action (entry.remove "Remove entry")
    ({ file with diags := file.diags ++ [diag] }, true)

/-- `check_defaults`: `sym._str_default() == sym.user_value` marks the
entry redundant — a hint tagged unnecessary with a remove action. -/
def check_defaults (file : ConfFile) (entry : ConfEntry) (sym : Symbol) :
    ConfFile × Bool :=
  if sym.str_default = sym.user_value then
    let diag := ((Diagnostic.hint ("Value is " ++ entry.raw ++ " by default")
      entry.full_range).mark_unnecessary).add_action
      (entry.remove "Remove redundant entry")
    ({ file with diags := file.diags ++ [diag] }, true)
  else (file, false)

/-- The related-information list of `check_multiple_assignments`: one link
per other occurrence, each evaluating the value of that occurrence (which may
raise). -/
def relInfos : List ConfEntry → Except PyExc (List DiagnosticRelatedInfo)
  | [] => .ok []
  | e2 :: rest =>
    match e2.value with
    | .error e => .error e
    | .ok v2 =>
      match relInfos rest with
      | .error e => .error e
      | .ok tl =>
        .ok (⟨e2.loc, "Already set to \"" ++ pyValStr v2 ++ "\" here"⟩ :: tl)

/-- `check_multiple_assignments`: when more than one entry in the full
cross-file list shares the name and `matching[0] != entry`
(`ConfEntry.__eq__` compares the `loc` objects by identity, so two entries
built by different `entries()` calls are never equal), emit a warning
naming the old and new values with related links to every occurrence whose
`loc` is not identical to this one; equal values downgrade it to an
unnecessary hint with a remove action. -/
def check_multiple_assignments (file : ConfFile) (entry : ConfEntry)
    (all : List ConfEntry) : Except PyExc (ConfFile × Bool) :=
  let matching := all.filter (fun e2 => e2.name = entry.name)
  match matching with
  | e0 :: _ :: _ =>
    if pyConfEntryEq e0 entry then .ok (file, false)
    else
      match e0.value with
      | .error e => .error e
      | .ok v0 =>
        match entry.value with
        | .error e => .error e
        | .ok v =>
          match relInfos (matching.filter (fun e2 => !pyConfEntryEq e2 entry)) with
          | .error e => .error e
          | .ok ris =>
            let base := Diagnostic.warn
              (entry.name ++ " set more than once. Old value \"" ++ pyValStr v0 ++
                "\", new value \"" ++ pyValStr v ++ "\".") entry.full_range
            let base := { base with related_info := ris }
            let final :=
              if v0 = v then
                ({ base.mark_unnecessary with severity := SevHINT }).add_action
                  (entry.remove "Remove redundant entry")
              else base
            .ok ({ file with diags := file.diags ++ [final] }, true)
  | _ => .ok (file, false)

/-- The per-entry chain of `KconfigContext.lint()`: run the six checks in
order, stopping at the first whose return value is truthy (each check
appends its diagnostic to the file before returning `True`). -/
def runEntryChecks (file : ConfFile) (entry : ConfEntry) (sym : Symbol)
    (all : List ConfEntry) : Except PyExc ConfFile :=
  let r1 := check_undefined file entry sym
  if r1.2 then .ok r1.1 else
  match check_type r1.1 entry sym with
  | .error e => .error e
  | .ok r2 =>
    if r2.2 then .ok r2.1 else
    match check_assignment r2.1 entry sym with
    | .error e => .error e
    | .ok r3 =>
      if r3.2 then .ok r3.1 else
      let r4 := check_visibility r3.1 entry sym
      if r4.2 then .ok r4.1 else
      let r5 := check_defaults r4.1 entry sym
      if r5.2 then .ok r5.1 else
      match check_multiple_assignments r5.1 entry all with
      | .error e => .error e
      | .ok r6 => .ok r6.1

/-- The outer per-entry step of `lint()`: entries naming no symbol of the
evaluation are skipped (`continue`) before any check runs. -/
def lintEntry (k : Kcfg) (file : ConfFile) (all : List ConfEntry)
    (entry : ConfEntry) : Except PyExc ConfFile :=
  match assocGet k.syms entry.name with
  | none => .ok file
  | some sym => runEntryChecks file entry sym all

theorem check_undefined_spec (f : ConfFile) (e : ConfEntry) (s : Symbol) :
    check_undefined f e s = (f, false) ∨
    ∃ d, check_undefined f e s = ({ f with diags := f.diags ++ [d] }, true) := by
  unfold check_undefined
  split
  · exact Or.inr ⟨_, rfl⟩
  · exact Or.inl rfl

theorem check_type_spec (f : ConfFile) (e : ConfEntry) (s : Symbol)
    (fx : ConfFile) (b : Bool) (h : check_type f e s = .ok (fx, b)) :
    (fx, b) = (f, false) ∨
    ∃ d, (fx, b) = ({ f with diags := f.diags ++ [d] }, true) := by
  unfold check_type at h
  split at h
  · split at h
    · split at h
      · exact Except.noConfusion h
      · split at h
        · exact Except.noConfusion h
        · exact Or.inr ⟨_, (Except.ok.inj h).symm⟩
    · exact Or.inr ⟨_, (Except.ok.inj h).symm⟩
  · exact Or.inl (Except.ok.inj h).symm

theorem check_assignment_deps_spec (f : ConfFile) (e : ConfEntry) (s : Symbol)
    (msg : String) (sev : Nat) (fx : ConfFile) (b : Bool)
    (h : check_assignment_deps f e s msg sev = (fx, b)) :
    (fx, b) = (f, false) ∨
    ∃ d, (fx, b) = ({ f with diags := f.diags ++ [d] }, true) := by
  simp only [check_assignment_deps] at h
  by_cases hd : (missing_deps s).isEmpty = true
  · rw [if_pos hd] at h
    exact Or.inl h.symm
  · rw [if_neg hd] at h
    exact Or.inr ⟨_, h.symm⟩

theorem check_assignment_spec (f : ConfFile) (e : ConfEntry) (s : Symbol)
    (fx : ConfFile) (b : Bool) (h : check_assignment f e s = .ok (fx, b)) :
    (fx, b) = (f, false) ∨
    ∃ d, (fx, b) = ({ f with diags := f.diags ++ [d] }, true) := by
  cases hu : userValueConv s with
  | error e2 => simp [check_assignment, hu] at h
  | ok uv =>
    simp only [check_assignment, hu] at h
    by_cases h1 : uv = KVal.vstr s.str_value
    · rw [if_pos h1] at h
      by_cases h2 : uv = KVal.vstr "y"
      · rw [if_pos h2] at h
        exact Or.inl (Except.ok.inj h).symm
      · rw [if_neg h2] at h
        exact check_assignment_deps_spec f e s _ _ fx b (Except.ok.inj h)
    · rw [if_neg h1] at h
      by_cases h3 : s.str_value.length ≠ 0
      · rw [if_pos h3] at h
        exact check_assignment_deps_spec f e s _ _ fx b (Except.ok.inj h)
      · rw [if_neg h3] at h
        exact check_assignment_deps_spec f e s _ _ fx b (Except.ok.inj h)

theorem check_visibility_spec (f : ConfFile) (e : ConfEntry) (s : Symbol) :
    check_visibility f e s = (f, false) ∨
    ∃ d, check_visibility f e s = ({ f with diags := f.diags ++ [d] }, true) := by
  unfold check_visibility
  split
  · exact Or.inl rfl
  · exact Or.inr ⟨_, rfl⟩

theorem check_defaults_spec (f : ConfFile) (e : ConfEntry) (s : Symbol) :
    check_defaults f e s = (f, false) ∨
    ∃ d, check_defaults f e s = ({ f with diags := f.diags ++ [d] }, true) := by
  unfold check_defaults
  split
  · exact Or.inr ⟨_, rfl⟩
  · exact Or.inl rfl

theorem check_multiple_assignments_spec (f : ConfFile) (e : ConfEntry)
    (all : List ConfEntry) (fx : ConfFile) (b : Bool)
    (h : check_multiple_assignments f e all = .ok (fx, b)) :
    (fx, b) = (f, false) ∨
    ∃ d, (fx, b) = ({ f with diags := f.diags ++ [d] }, true) := by
  simp only [check_multiple_assignments] at h
  cases hm : all.filter (fun e2 => e2.name = e.name) with
  | nil =>
    simp only [hm] at h
    exact Or.inl (Except.ok.inj h).symm
  | cons e0 rest =>
    cases rest with
    | nil =>
      simp only [hm] at h
      exact Or.inl (Except.ok.inj h).symm
    | cons e1 rest2 =>
      simp only [hm] at h
      by_cases hl : pyConfEntryEq e0 e = true
      · rw [if_pos hl] at h
        exact Or.inl (Except.ok.inj h).symm
      · rw [if_neg hl] at h
        cases hv0 : e0.value with
        | error e2 => simp [hv0] at h
        | ok v0 =>
          simp only [hv0] at h
          cases hv : e.value with
          | error e2 => simp [hv] at h
          | ok v =>
            simp only [hv] at h
            cases hri : relInfos
                ((e0 :: e1 :: rest2).filter (fun e2 => !pyConfEntryEq e2 e)) with
            | error e2 => simp [hri] at h
            | ok ris =>
              simp only [hri] at h
              exact Or.inr ⟨_, (Except.ok.inj h).symm⟩

/-- C4: lint exclusivity.  For an entry processed by the per-entry check
chain, the file gains at most one diagnostic, and the first applicable
check is the one that fires: whenever an earlier check reports
not-applicable (returns the file unchanged with `False`) and a later check
is the first to fire, the result of the chain is exactly the output of that
check,
and every later check is skipped — an entry satisfying the preconditions
of two checks gets exactly one diagnostic, from the higher-priority
check. -/
theorem c4_lint_exclusive (f : ConfFile) (e : ConfEntry) (s : Symbol)
    (all : List ConfEntry) (fr : ConfFile)
    (hrun : runEntryChecks f e s all = .ok fr) :
    fr.diags.length ≤ f.diags.length + 1 ∧
    (∀ f1, check_undefined f e s = (f1, true) → fr = f1) ∧
    (check_undefined f e s = (f, false) →
      ∀ f2, check_type f e s = .ok (f2, true) → fr = f2) ∧
    (check_undefined f e s = (f, false) → check_type f e s = .ok (f, false) →
      ∀ f3, check_assignment f e s = .ok (f3, true) → fr = f3) ∧
    (check_undefined f e s = (f, false) → check_type f e s = .ok (f, false) →
      check_assignment f e s = .ok (f, false) →
      ∀ f4, check_visibility f e s = (f4, true) → fr = f4) ∧
    (check_undefined f e s = (f, false) → check_type f e s = .ok (f, false) →
      check_assignment f e s = .ok (f, false) → check_visibility f e s = (f, false) →
      ∀ f5, check_defaults f e s = (f5, true) → fr = f5) ∧
    (check_undefined f e s = (f, false) → check_type f e s = .ok (f, false) →
      check_assignment f e s = .ok (f, false) → check_visibility f e s = (f, false) →
      check_defaults f e s = (f, false) →
      ∀ f6 b6, check_multiple_assignments f e all = .ok (f6, b6) → fr = f6) := by
  have hshape : fr = f ∨ ∃ d, fr = { f with diags := f.diags ++ [d] } := by
    rcases check_undefined_spec f e s with hc1 | ⟨d1, hc1⟩
    · cases hc2 : check_type f e s with
      | error e2 => simp [runEntryChecks, hc1, hc2] at hrun
      | ok r2 =>
        obtain ⟨f2, b2⟩ := r2
        rcases check_type_spec f e s f2 b2 hc2 with hp2 | ⟨d2, hp2⟩
        · injection hp2 with hf2 hb2
          subst hb2
          rw [hf2] at hc2
          cases hc3 : check_assignment f e s with
          | error e3 => simp [runEntryChecks, hc1, hc2, hc3] at hrun
          | ok r3 =>
            obtain ⟨f3, b3⟩ := r3
            rcases check_assignment_spec f e s f3 b3 hc3 with hp3 | ⟨d3, hp3⟩
            · injection hp3 with hf3 hb3
              subst hb3
              rw [hf3] at hc3
              rcases check_visibility_spec f e s with hc4 | ⟨d4, hc4⟩
              · rcases check_defaults_spec f e s with hc5 | ⟨d5, hc5⟩
                · cases hc6 : check_multiple_assignments f e all with
                  | error e6 =>
                    simp [runEntryChecks, hc1, hc2, hc3, hc4, hc5, hc6] at hrun
                  | ok r6 =>
                    obtain ⟨f6, b6⟩ := r6
                    rcases check_multiple_assignments_spec f e all f6 b6 hc6 with
                      hp6 | ⟨d6, hp6⟩
                    · injection hp6 with hf6 hb6
                      subst hb6
                      rw [hf6] at hc6
                      simp [runEntryChecks, hc1, hc2, hc3, hc4, hc5, hc6] at hrun
                      subst hrun
                      exact Or.inl rfl
                    · injection hp6 with hf6 hb6
                      subst hb6
                      rw [hf6] at hc6
                      simp [runEntryChecks, hc1, hc2, hc3, hc4, hc5, hc6] at hrun
                      subst hrun
                      exact Or.inr ⟨d6, rfl⟩
                · simp [runEntryChecks, hc1, hc2, hc3, hc4, hc5] at hrun
                  subst hrun
                  exact Or.inr ⟨d5, rfl⟩
              · simp [runEntryChecks, hc1, hc2, hc3, hc4] at hrun
                subst hrun
                exact Or.inr ⟨d4, rfl⟩
            · injection hp3 with hf3 hb3
              subst hb3
              rw [hf3] at hc3
              simp [runEntryChecks, hc1, hc2, hc3] at hrun
              subst hrun
              exact Or.inr ⟨d3, rfl⟩
        · injection hp2 with hf2 hb2
          subst hb2
          rw [hf2] at hc2
          simp [runEntryChecks, hc1, hc2] at hrun
          subst hrun
          exact Or.inr ⟨d2, rfl⟩
    · simp [runEntryChecks, hc1] at hrun
      subst hrun
      exact Or.inr ⟨d1, rfl⟩
  refine ⟨?_, ?_, ?_, ?_, ?_, ?_, ?_⟩
  · rcases hshape with h | ⟨d, h⟩
    · subst h
      omega
    · subst h
      simp
  · intro f1 h1
    simp [runEntryChecks, h1] at hrun
    first
    | exact hrun
    | exact hrun.symm
  · intro h1 f2 h2
    simp [runEntryChecks, h1, h2] at hrun
    first
    | exact hrun
    | exact hrun.symm
  · intro h1 h2 f3 h3
    simp [runEntryChecks, h1, h2, h3] at hrun
    first
    | exact hrun
    | exact hrun.symm
  · intro h1 h2 h3 f4 h4
    simp [runEntryChecks, h1, h2, h3, h4] at hrun
    first
    | exact hrun
    | exact hrun.symm
  · intro h1 h2 h3 h4 f5 h5
    simp [runEntryChecks, h1, h2, h3, h4, h5] at hrun
    first
    | exact hrun
    | exact hrun.symm
  · intro h1 h2 h3 h4 h5 f6 b6 h6
    simp [runEntryChecks, h1, h2, h3, h4, h5, h6] at hrun
    first
    | exact hrun
    | exact hrun.symm

/-- Sample `.conf` entry `CONFIG_FOO=y` on line 0 (location identity 0). -/
def entryFoo : ConfEntry :=
  ⟨"FOO", ⟨Uri.file "/p/prj.conf", ⟨⟨0, 0⟩, ⟨0, 10⟩⟩⟩, "y", ⟨⟨0, 11⟩, ⟨0, 12⟩⟩, 0⟩

/-- Sample conf file holding just `entryFoo`, no diagnostics yet. -/
def fileFoo : ConfFile := ⟨Uri.file "/p/prj.conf", [entryFoo], []⟩

/-- Sample symbol of UNKNOWN type (an undefined symbol). -/
def symUndef : Symbol := ⟨"FOO", .UNKNOWN, .vnone, "", [], .vnone, []⟩

/-- Witness for C4: `symUndef` satisfies the preconditions of both the
undefined check and the type check; exactly one diagnostic results, from
the undefined check. -/
theorem c4_lint_exclusive_witness :
    TYPE_TO_STR symUndef.stype ≠ entryFoo.typeStr ∧
    runEntryChecks fileFoo entryFoo symUndef [entryFoo] =
      .ok { fileFoo with diags := fileFoo.diags ++
        [Diagnostic.err "Undefined symbol CONFIG_FOO" entryFoo.full_range] } ∧
    ({ fileFoo with diags := fileFoo.diags ++
        [Diagnostic.err "Undefined symbol CONFIG_FOO" entryFoo.full_range] } :
      ConfFile).diags.length ≤ fileFoo.diags.length + 1 :=
  ⟨by decide, by decide,
    (c4_lint_exclusive fileFoo entryFoo symUndef [entryFoo]
      { fileFoo with diags := fileFoo.diags ++
        [Diagnostic.err "Undefined symbol CONFIG_FOO" entryFoo.full_range] }
      (by decide)).1⟩

/-! ## Claim C5: `check_assignment` -/

theorem foldl_add_action (acts : List CodeAction) :
    ∀ d : Diagnostic, acts.foldl Diagnostic.add_action d =
      { d with actions := d.actions ++ acts } := by
  induction acts with
  | nil => intro d; simp
  | cons a rest ih =>
    intro d
    rw [List.foldl_cons, ih]
    simp [Diagnostic.add_action]

/-- Sample symbol whose assigned value did not stick (`str_value` empty,
user value `y`) but whose dependencies are all met. -/
def symFooNoDeps : Symbol := ⟨"FOO", .BOOL, .vtri .y, "", [sampleNode], .vstr "n", []⟩

/-- C5: the claim as stated is false on the code.  The in-effect value of
`symFooNoDeps` (empty) differs from the requested `y` and the entry passes
checks 1 and 2, yet the lint pass emits no Warning: `check_assignment`
only appends its diagnostic inside the `if deps:` block, and this symbol
has no missing dependencies, so the whole chain leaves the file
unchanged. -/
theorem c5_assignment_counterexample :
    userValueConv symFooNoDeps = .ok (KVal.vstr "y") ∧
    KVal.vstr "y" ≠ KVal.vstr symFooNoDeps.str_value ∧
    missing_deps symFooNoDeps = [] ∧
    check_assignment fileFoo entryFoo symFooNoDeps = .ok (fileFoo, false) ∧
    runEntryChecks fileFoo entryFoo symFooNoDeps [entryFoo] = .ok fileFoo ∧
    fileFoo.diags = [] := by
  exact ⟨by decide, by decide, by decide, by decide, by decide, by decide⟩

/-- C5 (amended): for an entry (past checks 1 and 2) whose converted user
value differs from the value in effect, `check_assignment` emits its
Warning only when the missing-dependency list of the symbol is non-empty: then
the diagnostic is a Warning on the name range of the entry whose message
reports the effective value (when `str_value` is non-empty) or says the
symbol could not be set (when it is empty), with the missing-dependency
text appended and fix actions attached; with no missing dependencies it
emits nothing at all. -/
theorem c5_assignment_check (f : ConfFile) (e : ConfEntry) (s : Symbol)
    (uv : KVal) (hconv : userValueConv s = .ok uv)
    (hne : uv ≠ KVal.vstr s.str_value) :
    (missing_deps s = [] → check_assignment f e s = .ok (f, false)) ∧
    (missing_deps s ≠ [] →
      ∃ d, check_assignment f e s = .ok ({ f with diags := f.diags ++ [d] }, true) ∧
        d.severity = SevWARNING ∧
        d.range = e.range ∧
        (s.str_value ≠ "" →
          d.message = "CONFIG_" ++ s.name ++ " was assigned the value " ++ e.raw ++
            ", but got the value " ++ s.str_value ++ "." ++
            " Missing dependencies:\n" ++
            String.intercalate " && " ((missing_deps s).map Dep.exprStr)) ∧
        (s.str_value = "" →
          d.message = "CONFIG_" ++ s.name ++ " couldn\x27t be set." ++
            " Missing dependencies:\n" ++
            String.intercalate " && " ((missing_deps s).map Dep.exprStr)) ∧
        d.actions ≠ []) := by
  constructor
  · intro hdeps
    have hempty : (missing_deps s).isEmpty = true := by simp [hdeps]
    have hcad : ∀ msg sev, check_assignment_deps f e s msg sev = (f, false) := by
      intro msg sev
      simp only [check_assignment_deps]
      rw [if_pos hempty]
    simp only [check_assignment, hconv]
    rw [if_neg hne]
    by_cases h3 : s.str_value.length ≠ 0
    · rw [if_pos h3, hcad]
    · rw [if_neg h3, hcad]
  · intro hdeps
    have hif : ¬ ((missing_deps s).isEmpty = true) := by
      simp [List.isEmpty_iff, hdeps]
    have key : ∀ msg, check_assignment_deps f e s msg SevWARNING =
        ({ f with diags := f.diags ++
          [⟨msg ++ " Missing dependencies:\n" ++
              String.intercalate " && " ((missing_deps s).map Dep.exprStr),
            e.range, SevWARNING, [], [],
            enableActions f.uri (depEdits f e (missing_deps s)) ++
              [e.remove "Remove entry"]⟩] }, true) := by
      intro msg
      simp only [check_assignment_deps]
      rw [if_neg hif, if_neg (show ¬ (SevWARNING = SevHINT) by decide)]
      rw [foldl_add_action]
      rfl
    simp only [check_assignment, hconv]
    rw [if_neg hne]
    by_cases h3 : s.str_value.length ≠ 0
    · rw [if_pos h3, key]
      refine ⟨_, rfl, rfl, rfl, fun _ => rfl, fun hempty => ?_, by simp⟩
      exfalso
      rw [hempty] at h3
      exact h3 rfl
    · rw [if_neg h3, key]
      have hsv : s.str_value = "" := by
        have hlen : s.str_value.length = 0 := by omega
        cases hs : s.str_value with
        | mk data =>
          rw [hs] at hlen
          cases data with
          | nil => rfl
          | cons c cs => simp [String.length] at hlen
      refine ⟨_, rfl, rfl, rfl, fun hne2 => absurd hsv hne2, fun _ => rfl, by simp⟩

/-- One unmet boolean dependency `BAR`. -/
def depBar : Dep := ⟨0, true, "BAR", "BAR"⟩

/-- Sample symbol like `symFooNoDeps` but blocked by the unmet `BAR`. -/
def symFooBlocked : Symbol :=
  ⟨"FOO", .BOOL, .vtri .y, "", [sampleNode], .vstr "n", [depBar]⟩

/-- Witness for C5 (amended): with the unmet dependency `BAR`, the rejected
assignment produces a Warning with fix actions. -/
theorem c5_assignment_check_witness :
    userValueConv symFooBlocked = .ok (KVal.vstr "y") ∧
    KVal.vstr "y" ≠ KVal.vstr symFooBlocked.str_value ∧
    missing_deps symFooBlocked ≠ [] ∧
    (∃ d, check_assignment fileFoo entryFoo symFooBlocked =
        .ok ({ fileFoo with diags := fileFoo.diags ++ [d] }, true) ∧
      d.severity = SevWARNING ∧ d.actions ≠ []) := by
  refine ⟨by decide, by decide, by decide, ?_⟩
  obtain ⟨d, hd, hsev, hrange, hm1, hm2, hacts⟩ :=
    (c5_assignment_check fileFoo entryFoo symFooBlocked (KVal.vstr "y")
      (by decide) (by decide)).2 (by decide)
  exact ⟨d, hd, hsev, hacts⟩

/-! ## Claim C6: `check_multiple_assignments` -/

/-- Second sample entry `CONFIG_FOO=y`, on line 1 (location identity 1). -/
def entryFoo2 : ConfEntry :=
  ⟨"FOO", ⟨Uri.file "/p/prj.conf", ⟨⟨1, 0⟩, ⟨1, 10⟩⟩⟩, "y", ⟨⟨1, 11⟩, ⟨1, 12⟩⟩, 1⟩

/-- The first `CONFIG_FOO=y` entry as rebuilt by a second `entries()` call
(as `lint()` does for the per-file loop after building `all_entries`):
the same name, position and raw text as `entryFoo`, but a freshly
constructed `Location` object, hence a distinct identity. -/
def entryFooFresh : ConfEntry :=
  ⟨"FOO", ⟨Uri.file "/p/prj.conf", ⟨⟨0, 0⟩, ⟨0, 10⟩⟩⟩, "y", ⟨⟨0, 11⟩, ⟨0, 12⟩⟩, 2⟩

/-- The second `CONFIG_FOO=y` entry as rebuilt by a second `entries()`
call. -/
def entryFoo2Fresh : ConfEntry :=
  ⟨"FOO", ⟨Uri.file "/p/prj.conf", ⟨⟨1, 0⟩, ⟨1, 10⟩⟩⟩, "y", ⟨⟨1, 11⟩, ⟨1, 12⟩⟩, 3⟩

/-- C6: the claim as stated is false on the code.  `ConfEntry.__eq__`
compares `self.loc == o.loc`, and `Location` defines no `__eq__`, so the
comparison is object identity.  `lint()` builds `all_entries` and the
per-file entry list with two separate `entries()` calls, each of which
constructs fresh `Location` objects, so the looped `entry` is never
identical to any element of `matching`: `matching[0] != entry` holds even
for the first occurrence, which therefore receives its own duplicate
diagnostic — with equal old and new values, hence always the unnecessary
Hint with the removal action — and the related-information filter
`e != entry` removes nothing, so the list links every occurrence
including the position of the entry itself.  Here `entryFooFresh` is the
first occurrence of `FOO` (same name, location value and raw text as
`entryFoo`, fresh identity) and still gets the Hint, whose related
information starts with its own position. -/
theorem c6_first_occurrence_counterexample :
    entryFooFresh.name = entryFoo.name ∧
    entryFooFresh.loc = entryFoo.loc ∧
    entryFooFresh.raw = entryFoo.raw ∧
    pyConfEntryEq entryFoo entryFooFresh = false ∧
    [entryFoo, entryFoo2].filter (fun e2 => e2.name = entryFooFresh.name) =
      [entryFoo, entryFoo2] ∧
    check_multiple_assignments fileFoo entryFooFresh [entryFoo, entryFoo2] =
      .ok ({ fileFoo with diags := fileFoo.diags ++
        [⟨"FOO set more than once. Old value \"y\", new value \"y\".",
          entryFooFresh.full_range, SevHINT, [TagUNNECESSARY],
          [⟨entryFoo.loc, "Already set to \"y\" here"⟩,
           ⟨entryFoo2.loc, "Already set to \"y\" here"⟩],
          [entryFooFresh.remove "Remove redundant entry"]⟩] }, true) := by
  exact ⟨by decide, by decide, by decide, by decide, by decide, by decide⟩

/-- C6 (amended): duplicate assignments.  For an entry reaching the
duplicate check whose name is assigned by more than one entry of the full
cross-file list, and which is not identically the first matching entry —
in `lint()` this always holds, entries being rebuilt for each loop — a
diagnostic is appended naming the value of the first occurrence and of
this one: a Warning with no tag and no action when the literal values
differ, downgraded to a Hint tagged unnecessary with a "Remove redundant
entry" action when they are equal.  Its related information links every
matching occurrence that is not identically this entry — under the same
always-holding condition, all of them, the re-derived position of the
entry itself included.  The check stays silent only when the first
matching entry is identically the checked entry (or the name is assigned
at most once). -/
theorem c6_duplicate_assignment (f : ConfFile) (entry e0 e1 : ConfEntry)
    (all : List ConfEntry) (rest2 : List ConfEntry) (v0 v : PyVal)
    (ris : List DiagnosticRelatedInfo)
    (hmatch : all.filter (fun e2 => e2.name = entry.name) = e0 :: e1 :: rest2)
    (hall : ∀ e2 ∈ e0 :: e1 :: rest2, pyConfEntryEq e2 entry = false)
    (hv0 : e0.value = .ok v0) (hv : entry.value = .ok v)
    (hris : relInfos (e0 :: e1 :: rest2) = .ok ris) :
    (∃ d, check_multiple_assignments f entry all =
        .ok ({ f with diags := f.diags ++ [d] }, true) ∧
      d.message = entry.name ++ " set more than once. Old value \"" ++
        pyValStr v0 ++ "\", new value \"" ++ pyValStr v ++ "\"." ∧
      d.related_info = ris ∧
      (v0 ≠ v → d.severity = SevWARNING ∧ d.tags = [] ∧ d.actions = []) ∧
      (v0 = v → d.severity = SevHINT ∧ d.tags = [TagUNNECESSARY] ∧
        d.actions = [entry.remove "Remove redundant entry"])) ∧
    (∀ g ef efirst r1, all.filter (fun e2 => e2.name = ef.name) = efirst :: r1 →
      pyConfEntryEq efirst ef = true →
      check_multiple_assignments g ef all = .ok (g, false)) := by
  have hfilter : (e0 :: e1 :: rest2).filter
      (fun e2 => !pyConfEntryEq e2 entry) = e0 :: e1 :: rest2 :=
    List.filter_eq_self.mpr (fun a ha => by simp [hall a ha])
  constructor
  · simp only [check_multiple_assignments, hmatch]
    rw [if_neg (by simp [hall e0 (List.mem_cons_self e0 _)])]
    rw [hfilter]
    simp only [hv0, hv, hris]
    refine ⟨_, rfl, ?_, ?_, ?_, ?_⟩
    · by_cases hvv : v0 = v <;>
        simp [hvv, Diagnostic.mark_unnecessary, Diagnostic.add_action,
          Diagnostic.warn]
    · by_cases hvv : v0 = v <;>
        simp [hvv, Diagnostic.mark_unnecessary, Diagnostic.add_action,
          Diagnostic.warn]
    · intro hvv
      rw [if_neg hvv]
      exact ⟨rfl, rfl, rfl⟩
    · intro hvv
      rw [if_pos hvv]
      refine ⟨rfl, ?_, ?_⟩
      · simp [Diagnostic.mark_unnecessary, Diagnostic.add_action, Diagnostic.warn]
      · simp [Diagnostic.mark_unnecessary, Diagnostic.add_action, Diagnostic.warn]
  · intro g ef efirst r1 hm1 heq
    cases r1 with
    | nil =>
      simp only [check_multiple_assignments, hm1]
    | cons e1b rest1b =>
      simp only [check_multiple_assignments, hm1]
      rw [if_pos heq]

/-- Witness for C6: two `CONFIG_FOO=y` entries with identical values,
checked through rebuilt copies as `lint()` does — the second occurrence
gets an unnecessary Hint with a removal action whose related information
links both occurrences; a check where the first matching entry is the very
entry object stays silent. -/
theorem c6_duplicate_assignment_witness :
    (∀ e2 ∈ [entryFoo, entryFoo2], pyConfEntryEq e2 entryFoo2Fresh = false) ∧
    [entryFoo, entryFoo2].filter (fun e2 => e2.name = entryFoo2Fresh.name) =
      [entryFoo, entryFoo2] ∧
    entryFoo.value = .ok (PyVal.vstr "y") ∧
    entryFoo2Fresh.value = .ok (PyVal.vstr "y") ∧
    (∃ d, check_multiple_assignments fileFoo entryFoo2Fresh
        [entryFoo, entryFoo2] =
        .ok ({ fileFoo with diags := fileFoo.diags ++ [d] }, true) ∧
      d.severity = SevHINT ∧ d.tags = [TagUNNECESSARY] ∧
      d.related_info = [⟨entryFoo.loc, "Already set to \"y\" here"⟩,
        ⟨entryFoo2.loc, "Already set to \"y\" here"⟩] ∧
      d.actions = [entryFoo2Fresh.remove "Remove redundant entry"]) ∧
    check_multiple_assignments fileFoo entryFoo [entryFoo, entryFoo2] =
      .ok (fileFoo, false) := by
  refine ⟨by decide, by decide, by decide, by decide, ?_, ?_⟩
  · obtain ⟨d, hd, hmsg, hri, hdiff, heqc⟩ :=
      (c6_duplicate_assignment fileFoo entryFoo2Fresh entryFoo entryFoo2
        [entryFoo, entryFoo2] [] (PyVal.vstr "y") (PyVal.vstr "y")
        [⟨entryFoo.loc, "Already set to \"y\" here"⟩,
         ⟨entryFoo2.loc, "Already set to \"y\" here"⟩]
        (by decide) (by decide) (by decide) (by decide) (by decide)).1
    obtain ⟨hsev, htags, hacts⟩ := heqc rfl
    exact ⟨d, hd, hsev, htags, hri, hacts⟩
  · exact (c6_duplicate_assignment fileFoo entryFoo2Fresh entryFoo entryFoo2
      [entryFoo, entryFoo2] [] (PyVal.vstr "y") (PyVal.vstr "y")
      [⟨entryFoo.loc, "Already set to \"y\" here"⟩,
       ⟨entryFoo2.loc, "Already set to \"y\" here"⟩]
      (by decide) (by decide) (by decide) (by decide) (by decide)).2
      fileFoo entryFoo entryFoo [entryFoo2] (by decide) (by decide)
